import Mathlib

/-!
Verification development for the amber buffer engine (`src/buffer.cc`) and the
vkscript parser behavior pinned down by its test oracle
(`src/vkscript/parser_test.cc`).

The buffer engine is embedded shallowly: machine integers become `Nat`/`Int`
with explicit `% 2^w` where C++ wraparound matters, raw byte memory becomes
`List Nat` (each entry a byte value), fatal assertion failures become `none`
of an `Option` result, and the recoverable `amber::Result` class becomes the
two-constructor type `Result'` below.  Types and operations whose C++ source
is not part of this excerpt (`buffer.h` accessors, the `Format`/`Segment`
classes, `Value`, and the vkscript parser itself) are modelled from the
specification and the test oracle; each such definition carries a doc comment
saying so.
-/

namespace Amber

/-- Modelled from the spec: the scalar interpretation modes of a format
component that this excerpt exercises (signed integer, unsigned integer,
floating point).  The full amber `FormatMode` enumeration has further modes
(UNorm, SScaled, SRGB, ...) that no claim touches. -/
inductive FormatMode
  | SInt
  | UInt
  | SFloat
deriving DecidableEq

/-- Modelled from the spec: one contiguous region of a format's per-element
byte layout, either a fixed padding run or one typed component. -/
inductive Segment
  | padding (nbytes : Nat)
  | component (mode : FormatMode) (numBits : Nat)
deriving DecidableEq

/-- Mirror of `Format::Segment::IsPadding`. -/
def Segment.IsPadding : Segment → Bool
  | .padding _ => true
  | .component _ _ => false

/-- Mirror of `Format::Segment::PaddingBytes`. -/
def Segment.PaddingBytes : Segment → Nat
  | .padding n => n
  | .component _ _ => 0

/-- Mirror of `Format::Segment::SizeInBytes`: padding runs occupy their byte
count, a component occupies `numBits / 8` bytes. -/
def Segment.SizeInBytes : Segment → Nat
  | .padding n => n
  | .component _ bits => bits / 8

/-- Mirror of `Format::Segment::GetFormatMode` (padding carries no real mode;
the C++ code never asks a padding segment for its mode). -/
def Segment.GetFormatMode : Segment → FormatMode
  | .padding _ => .UInt
  | .component m _ => m

/-- Mirror of `Format::Segment::GetNumBits`. -/
def Segment.GetNumBits : Segment → Nat
  | .padding _ => 0
  | .component _ bits => bits

/-- Modelled from the spec: a format is an ordered sequence of segments plus
the packed flag.  Two formats are equal iff their segment sequences (and
packedness) match exactly, which `DecidableEq` gives structurally. -/
structure Format where
  segments : List Segment
  isPacked : Bool
deriving DecidableEq

/-- Modelled from the spec: `SizeInBytes()` is the sum of the segment sizes. -/
def Format.SizeInBytes (f : Format) : Nat :=
  (f.segments.map Segment.SizeInBytes).sum

/-- Modelled from the spec: `InputNeededPerElement()` counts the non-padding
segments whose values come from external input; a packed format is read via a
single input value covering the whole element. -/
def Format.InputNeededPerElement (f : Format) : Nat :=
  if f.isPacked then 1
  else (f.segments.filter (fun s => !s.IsPadding)).length

/-- Mirror of the `type::Type::IsInt8` dispatch predicate (and likewise for
the other width/mode predicates below): the single source of truth the C++
code uses to classify a (mode, bits) pair. -/
def IsInt8 (m : FormatMode) (bits : Nat) : Bool := m = .SInt && bits = 8

def IsInt16 (m : FormatMode) (bits : Nat) : Bool := m = .SInt && bits = 16

def IsInt32 (m : FormatMode) (bits : Nat) : Bool := m = .SInt && bits = 32

def IsInt64 (m : FormatMode) (bits : Nat) : Bool := m = .SInt && bits = 64

def IsUint8 (m : FormatMode) (bits : Nat) : Bool := m = .UInt && bits = 8

def IsUint16 (m : FormatMode) (bits : Nat) : Bool := m = .UInt && bits = 16

def IsUint32 (m : FormatMode) (bits : Nat) : Bool := m = .UInt && bits = 32

def IsUint64 (m : FormatMode) (bits : Nat) : Bool := m = .UInt && bits = 64

def IsFloat16 (m : FormatMode) (bits : Nat) : Bool := m = .SFloat && bits = 16

def IsFloat32 (m : FormatMode) (bits : Nat) : Bool := m = .SFloat && bits = 32

def IsFloat64 (m : FormatMode) (bits : Nat) : Bool := m = .SFloat && bits = 64

/-! ## Raw byte memory operations

Byte memory is a `List Nat` whose entries are byte values.  An out-of-bounds
write through `List.set` is a no-op; in C++ the corresponding write through a
raw pointer is undefined behavior, and no theorem below relies on the value
stored by such a write (only list length, which both models preserve). -/

/-- Read `n` bytes little-endian starting at `ptr` (out-of-range reads give
0; the hypotheses of the theorems below keep all reads in range). -/
def readLE (bytes : List Nat) (ptr : Nat) : Nat → Nat
  | 0 => 0
  | n + 1 => bytes.getD ptr 0 + 256 * readLE bytes (ptr + 1) n

/-- Write the low `n` bytes of `x` little-endian starting at `ptr`. -/
def writeLE (bytes : List Nat) (ptr : Nat) : Nat → Nat → List Nat
  | 0, _ => bytes
  | n + 1, x => writeLE (bytes.set ptr (x % 256)) (ptr + 1) n (x / 256)

/-- Mirror of `memset(bytes + off, 0, n)`. -/
def zeroRange (bytes : List Nat) (off : Nat) : Nat → List Nat
  | 0 => bytes
  | n + 1 => zeroRange (bytes.set off 0) (off + 1) n

/-- Mirror of `memcpy(bytes + off, src, src.size())`. -/
def copyRange (bytes : List Nat) (off : Nat) : List Nat → List Nat
  | [] => bytes
  | x :: xs => copyRange (bytes.set off x) (off + 1) xs

/-- Mirror of `std::vector<uint8_t>::resize`: truncate or zero-pad to `n`. -/
def listResize (bytes : List Nat) (n : Nat) : List Nat :=
  if n ≤ bytes.length then bytes.take n
  else bytes ++ List.replicate (n - bytes.length) 0

/-- Two's-complement reading of an `n`-bit pattern as a signed integer. -/
def toSigned (n : Nat) (x : Nat) : Int :=
  if x < 2 ^ (n - 1) then (x : Int) else (x : Int) - 2 ^ n

/-! ## Float16 truncation (buffer.cc lines 24-50)

These functions in the C++ source operate on the `uint32_t` obtained by
reinterpreting the bits of a 32-bit float; the model takes that 32-bit
pattern directly as a `Nat`. -/

/-- Mirror of `FloatSign`: `static_cast<uint16_t>(hex_float >> 31U)`. -/
def FloatSign (hex_float : Nat) : Nat :=
  hex_float >>> 31

/-- Mirror of `FloatExponent`: `((hex_float >> 23U) & ((1U << 8U) - 1U)) - 112U`
in `uint32_t` arithmetic (the subtraction wraps modulo `2^32`; the mask by
`(1 << 8) - 1` is written as `% 2^8`).  The C++ asserts
`(exponent & ~((1U << 5U) - 1U)) == 0`, i.e. that the wrapped exponent is
below 32; assertion failure is modelled as `none`.  Under the assertion the
final `& ((1 << 5) - 1)` is the identity, so the guarded value is returned
as is. -/
def FloatExponent (hex_float : Nat) : Option Nat :=
  let exponent := ((hex_float >>> 23) % 2 ^ 8 + 2 ^ 32 - 112) % 2 ^ 32
  if exponent < 32 then some exponent else none

/-- Mirror of `FloatMantissa`: `hex_float & ((1U << 23U) - 1U)`. -/
def FloatMantissa (hex_float : Nat) : Nat :=
  hex_float % 2 ^ 23

/-- Mirror of `FloatToHexFloat16`: sign to bit 15, rebiased exponent to bits
10-14, mantissa truncated (shifted right by 13) to bits 0-9.  Each operand of
the bitwise or is below `2^16`, so the `static_cast<uint16_t>` casts in the
C++ source are the identity. -/
def FloatToHexFloat16 (hex_float : Nat) : Option Nat :=
  (FloatExponent hex_float).map fun e =>
    (FloatSign hex_float <<< 15) ||| (e <<< 10) ||| (FloatMantissa hex_float >>> 13)

/-! ## Value, Buffer and Result -/

/-- Modelled from the spec: a tagged scalar, the parsers' and encoders'
common currency.  An integer value carries its mathematical value; a float
value carries the IEEE-754 binary32 bit pattern of the stored float, because
every use of a float `Value` in this excerpt (`FloatToHexFloat16`) consumes
exactly that pattern. -/
inductive Value
  | integer (v : Int)
  | floatBits (w : Nat)
deriving DecidableEq

/-- Modelled from the spec: `Value::AsUint8` / `AsInt8` / ... all reduce, at
the byte level, to storing the low `n` bits of the integer value
(two's-complement for negatives, which is what `%` on `Int` composed with
`toNat` yields).  The float-to-integer conversion path is exercised by no
claim and is elided as 0. -/
def Value.bitsAs (n : Nat) : Value → Nat
  | .integer v => (v % (2 ^ n : Int)).toNat
  | .floatBits _ => 0

/-- Modelled from the spec: `Value::AsFloat` reinterpreted as its binary32
bit pattern (integer-to-float conversion is exercised by no claim and is
elided as 0). -/
def Value.asFloatBits : Value → Nat
  | .integer _ => 0
  | .floatBits w => w % 2 ^ 32

/-- Modelled from the spec: `Value::AsDouble` as a binary64 bit pattern; the
widening conversion is exercised by no claim and is elided as 0. -/
def Value.asDoubleBits : Value → Nat
  | .integer _ => 0
  | .floatBits _ => 0

/-- Modelled from the spec: the buffer-type tag. -/
inductive BufferType
  | color
  | depth
  | index
  | vertex
deriving DecidableEq

/-- Mirror of `amber::Result`: success, or a recoverable error message. -/
inductive Result'
  | success
  | failure (msg : String)
deriving DecidableEq

/-- Mirror of `amber::Buffer`'s data members used by `buffer.cc`: the byte
storage, the element count, width/height, the optional max size (0 = unset)
and the format. -/
structure Buffer where
  bufferType : BufferType
  format : Format
  bytes : List Nat
  elementCount : Nat
  width : Nat
  height : Nat
  maxSizeInBytes : Nat
deriving DecidableEq

/-- Modelled from the spec: `Buffer::ElementCount`. -/
def Buffer.ElementCount (b : Buffer) : Nat := b.elementCount

/-- Modelled from the spec: `Buffer::GetSizeInBytes` is
`ElementCount() * format.SizeInBytes()`. -/
def Buffer.GetSizeInBytes (b : Buffer) : Nat :=
  b.elementCount * b.format.SizeInBytes

/-- Modelled from the spec: `Buffer::ValueCount` is the element count times
the input needed per element (a packed element is a single value). -/
def Buffer.ValueCount (b : Buffer) : Nat :=
  if b.format.isPacked then b.elementCount
  else b.elementCount * b.format.InputNeededPerElement

/-- Modelled from the spec: `Buffer::SetValueCount` recomputes the element
count from a value count, dividing by the needed input values exactly as the
visible `RecalculateMaxSizeInBytes` does (`element_count = value_count` when
packed, else `value_count / InputNeededPerElement()`). -/
def Buffer.SetValueCount (b : Buffer) (count : Nat) : Buffer :=
  if b.format.isPacked then { b with elementCount := count }
  else { b with elementCount := count / b.format.InputNeededPerElement }

/-! ## Per-type subtraction (buffer.cc lines 57-61)

Each `Sub_*` function below is one instantiation of the C++ template
`Sub<T>`, which evaluates `static_cast<double>(a - b)` on the two values read
from raw memory.  C++ usual arithmetic conversions apply to `a - b`:

* 8-bit and 16-bit operands (signed or unsigned) are promoted to `int`
  first, so the subtraction is exact and can be negative even for unsigned
  operand types;
* `uint32_t` and `uint64_t` operands stay unsigned and the subtraction wraps
  modulo `2^32` / `2^64`;
* `int32_t` and `int64_t` subtraction overflow is undefined behavior in C++;
  the model returns the exact difference, which matches every implementation
  on the non-overflowing range.

The `double` result is modelled as `Rat`; the cast of a wrapped `uint64_t`
difference (and the float paths) can round in C++ where the model is exact,
which no theorem below depends on. -/

def Sub_i8 (b1 : List Nat) (p1 : Nat) (b2 : List Nat) (p2 : Nat) : Rat :=
  ((toSigned 8 (readLE b1 p1 1) - toSigned 8 (readLE b2 p2 1) : Int) : Rat)

def Sub_i16 (b1 : List Nat) (p1 : Nat) (b2 : List Nat) (p2 : Nat) : Rat :=
  ((toSigned 16 (readLE b1 p1 2) - toSigned 16 (readLE b2 p2 2) : Int) : Rat)

def Sub_i32 (b1 : List Nat) (p1 : Nat) (b2 : List Nat) (p2 : Nat) : Rat :=
  ((toSigned 32 (readLE b1 p1 4) - toSigned 32 (readLE b2 p2 4) : Int) : Rat)

def Sub_i64 (b1 : List Nat) (p1 : Nat) (b2 : List Nat) (p2 : Nat) : Rat :=
  ((toSigned 64 (readLE b1 p1 8) - toSigned 64 (readLE b2 p2 8) : Int) : Rat)

def Sub_u8 (b1 : List Nat) (p1 : Nat) (b2 : List Nat) (p2 : Nat) : Rat :=
  ((readLE b1 p1 1 : Int) - (readLE b2 p2 1 : Int) : Int)

def Sub_u16 (b1 : List Nat) (p1 : Nat) (b2 : List Nat) (p2 : Nat) : Rat :=
  ((readLE b1 p1 2 : Int) - (readLE b2 p2 2 : Int) : Int)

def Sub_u32 (b1 : List Nat) (p1 : Nat) (b2 : List Nat) (p2 : Nat) : Rat :=
  (((readLE b1 p1 4 + 2 ^ 32 - readLE b2 p2 4) % 2 ^ 32 : Nat) : Rat)

def Sub_u64 (b1 : List Nat) (p1 : Nat) (b2 : List Nat) (p2 : Nat) : Rat :=
  (((readLE b1 p1 8 + 2 ^ 64 - readLE b2 p2 8) % 2 ^ 64 : Nat) : Rat)

/-- Exact value of an IEEE-754 binary32 bit pattern (normal and subnormal;
the all-ones exponent, which denotes an infinity or NaN, is idealized by the
same normal-number formula; no theorem depends on float-segment values). -/
def f32ToRat (w : Nat) : Rat :=
  let s : Rat := if w / 2 ^ 31 % 2 = 1 then -1 else 1
  let e : Nat := w / 2 ^ 23 % 2 ^ 8
  let m : Nat := w % 2 ^ 23
  if e = 0 then s * (m : Rat) / 2 ^ 149
  else s * ((2 ^ 23 + m : Nat) : Rat) * 2 ^ e / 2 ^ 150

/-- Exact value of an IEEE-754 binary64 bit pattern (same conventions as
`f32ToRat`). -/
def f64ToRat (w : Nat) : Rat :=
  let s : Rat := if w / 2 ^ 63 % 2 = 1 then -1 else 1
  let e : Nat := w / 2 ^ 52 % 2 ^ 11
  let m : Nat := w % 2 ^ 52
  if e = 0 then s * (m : Rat) / 2 ^ 1074
  else s * ((2 ^ 52 + m : Nat) : Rat) * 2 ^ e / 2 ^ 1075

/-- Mirror of `Sub<float>`: the subtraction of the two decoded values (exact
in the model; IEEE float subtraction rounds, which no theorem relies on). -/
def Sub_f32 (b1 : List Nat) (p1 : Nat) (b2 : List Nat) (p2 : Nat) : Rat :=
  f32ToRat (readLE b1 p1 4) - f32ToRat (readLE b2 p2 4)

/-- Mirror of `Sub<double>` (same conventions as `Sub_f32`). -/
def Sub_f64 (b1 : List Nat) (p1 : Nat) (b2 : List Nat) (p2 : Nat) : Rat :=
  f64ToRat (readLE b1 p1 8) - f64ToRat (readLE b2 p2 8)

/-- Mirror of the free function `CalculateDiff` (buffer.cc lines 63-96): the
if-chain over the type predicates, in source order.  The float16 branch and
the final NOTREACHED branch are `assert(false)` in the C++ source, modelled
as `none`. -/
def CalculateDiff (seg : Segment) (b1 : List Nat) (p1 : Nat)
    (b2 : List Nat) (p2 : Nat) : Option Rat :=
  let mode := seg.GetFormatMode
  let bits := seg.GetNumBits
  if IsInt8 mode bits then some (Sub_i8 b1 p1 b2 p2)
  else if IsInt16 mode bits then some (Sub_i16 b1 p1 b2 p2)
  else if IsInt32 mode bits then some (Sub_i32 b1 p1 b2 p2)
  else if IsInt64 mode bits then some (Sub_i64 b1 p1 b2 p2)
  else if IsUint8 mode bits then some (Sub_u8 b1 p1 b2 p2)
  else if IsUint16 mode bits then some (Sub_u16 b1 p1 b2 p2)
  else if IsUint32 mode bits then some (Sub_u32 b1 p1 b2 p2)
  else if IsUint64 mode bits then some (Sub_u64 b1 p1 b2 p2)
  else if IsFloat16 mode bits then none
  else if IsFloat32 mode bits then some (Sub_f32 b1 p1 b2 p2)
  else if IsFloat64 mode bits then some (Sub_f64 b1 p1 b2 p2)
  else none

/-- One element of the `CalculateDiffs` walk: traverse the segment list once,
advancing both cursors over padding with no output and producing one diff per
component segment. -/
def diffSegs (b1 b2 : List Nat) :
    List Segment → Nat → Nat → Option (List Rat × Nat × Nat)
  | [], p1, p2 => some ([], p1, p2)
  | seg :: rest, p1, p2 =>
    if seg.IsPadding then
      diffSegs b1 b2 rest (p1 + seg.PaddingBytes) (p2 + seg.PaddingBytes)
    else
      match CalculateDiff seg b1 p1 b2 p2 with
      | none => none
      | some d =>
        match diffSegs b1 b2 rest (p1 + seg.SizeInBytes) (p2 + seg.SizeInBytes) with
        | none => none
        | some (ds, q1, q2) => some (d :: ds, q1, q2)

/-- The outer element loop of `Buffer::CalculateDiffs`. -/
def diffElems (segs : List Segment) (b1 b2 : List Nat) :
    Nat → Nat → Nat → Option (List Rat)
  | 0, _, _ => some []
  | n + 1, p1, p2 =>
    match diffSegs b1 b2 segs p1 p2 with
    | none => none
    | some (ds, q1, q2) =>
      match diffElems segs b1 b2 n q1 q2 with
      | none => none
      | some rest => some (ds ++ rest)

/-- Mirror of `Buffer::CalculateDiffs` (buffer.cc lines 156-178). -/
def Buffer.CalculateDiffs (b : Buffer) (buffer : Buffer) : Option (List Rat) :=
  diffElems b.format.segments b.bytes buffer.bytes b.ElementCount 0 0

/-! ## IsEqual (buffer.cc lines 117-154)

The single C++ loop simultaneously counts every differing byte and remembers
the first difference; the model splits those two accumulations into
`countDiffs` and `firstDiff`, which together compute exactly what the loop's
four locals hold when it finishes. -/

/-- Number of positions at which the two byte lists differ. -/
def countDiffs : List Nat → List Nat → Nat
  | a :: as, b :: bs => (if a = b then 0 else 1) + countDiffs as bs
  | _, _ => 0

/-- First differing position (index from `i`) with both byte values. -/
def firstDiff (i : Nat) : List Nat → List Nat → Option (Nat × Nat × Nat)
  | a :: as, b :: bs =>
    if a = b then firstDiff (i + 1) as bs else some (i, a, b)
  | _, _ => none

/-- Mirror of `Buffer::IsEqual`. -/
def Buffer.IsEqual (b : Buffer) (buffer : Buffer) : Result' :=
  if buffer.format ≠ b.format then .failure "Buffers have a different format"
  else if buffer.elementCount ≠ b.elementCount then
    .failure "Buffers have a different size"
  else if buffer.width ≠ b.width then .failure "Buffers have a different width"
  else if buffer.height ≠ b.height then
    .failure "Buffers have a different height"
  else if buffer.bytes.length ≠ b.bytes.length then
    .failure "Buffers have a different number of values"
  else
    match firstDiff 0 b.bytes buffer.bytes with
    | none => .success
    | some (idx, l, r) =>
      .failure ("Buffers have different values. " ++
        toString (countDiffs b.bytes buffer.bytes) ++
        " values differed, first difference at byte " ++ toString idx ++
        " values " ++ toString l ++ " != " ++ toString r)

/-! ## CompareRMSE (buffer.cc lines 180-205) -/

/-- Decision of `sqrt(q) > tol` for a nonnegative rational `q`, avoiding an
irrational intermediate: `sqrt(q) > tol` iff `tol < 0` or `tol^2 < q`.
Theorem `sqrtGTQ_iff` below proves this equivalent to the real-number
comparison the C++ `std::sqrt` performs. -/
def sqrtGTQ (q tol : Rat) : Bool :=
  decide (tol < 0) || decide (tol * tol < q)

/-- Mirror of `Buffer::CompareRMSE`.  When the diff list is empty the C++
computes `0.0 / 0.0`, an IEEE-754 NaN, takes `sqrt` of it (still NaN) and
compares `NaN > tolerance`, which is false for every tolerance, so the
function succeeds; the model encodes that branch explicitly.  The failure
message interpolates the two numbers via `std::to_string`; the model elides
the number formatting, which no claim observes. -/
def Buffer.CompareRMSE (b : Buffer) (buffer : Buffer) (tolerance : Rat) :
    Option Result' :=
  if buffer.format ≠ b.format then some (.failure "Buffers have a different format")
  else if buffer.elementCount ≠ b.elementCount then
    some (.failure "Buffers have a different size")
  else if buffer.width ≠ b.width then
    some (.failure "Buffers have a different width")
  else if buffer.height ≠ b.height then
    some (.failure "Buffers have a different height")
  else if buffer.ValueCount ≠ b.ValueCount then
    some (.failure "Buffers have a different number of values")
  else
    (b.CalculateDiffs buffer).map fun diffs =>
      let sum := (diffs.map fun v => v * v).sum
      if diffs.length = 0 then .success
      else if sqrtGTQ (sum / (diffs.length : Rat)) tolerance then
        .failure "Root Mean Square Error is greater than tolerance"
      else .success

/-! ## Encoding and the mutating operations (buffer.cc lines 207-362) -/

/-- Mirror of `Buffer::WriteValueFromComponent`: dispatch on (mode, bits) in
source order, write the correctly-sized little-endian machine representation
and return the byte count written together with the updated memory.  The
float16 branch calls `FloatToHexFloat16`, whose assertion can fire; the final
unreachable branch is `assert(false)`; both are `none`. -/
def WriteValueFromComponent (v : Value) (mode : FormatMode) (bits : Nat)
    (bytes : List Nat) (ptr : Nat) : Option (Nat × List Nat) :=
  if IsInt8 mode bits then some (1, writeLE bytes ptr 1 (v.bitsAs 8))
  else if IsInt16 mode bits then some (2, writeLE bytes ptr 2 (v.bitsAs 16))
  else if IsInt32 mode bits then some (4, writeLE bytes ptr 4 (v.bitsAs 32))
  else if IsInt64 mode bits then some (8, writeLE bytes ptr 8 (v.bitsAs 64))
  else if IsUint8 mode bits then some (1, writeLE bytes ptr 1 (v.bitsAs 8))
  else if IsUint16 mode bits then some (2, writeLE bytes ptr 2 (v.bitsAs 16))
  else if IsUint32 mode bits then some (4, writeLE bytes ptr 4 (v.bitsAs 32))
  else if IsUint64 mode bits then some (8, writeLE bytes ptr 8 (v.bitsAs 64))
  else if IsFloat16 mode bits then
    (FloatToHexFloat16 v.asFloatBits).map fun h16 => (2, writeLE bytes ptr 2 h16)
  else if IsFloat32 mode bits then some (4, writeLE bytes ptr 4 v.asFloatBits)
  else if IsFloat64 mode bits then some (8, writeLE bytes ptr 8 v.asDoubleBits)
  else none

/-- One pass of the inner segment loop of `Buffer::SetDataWithOffset`:
padding segments advance the write cursor without consuming a value, each
component segment consumes exactly one value (`data[i++]`) and advances the
cursor by the byte count the encoder wrote.  When the data runs out before
the segment walk finishes, the C++ indexes `data` out of bounds — undefined
behavior, modelled as `none`. -/
def writeSegs : List Segment → List Value → List Nat → Nat →
    Option (List Value × List Nat × Nat)
  | [], data, bytes, ptr => some (data, bytes, ptr)
  | seg :: rest, data, bytes, ptr =>
    if seg.IsPadding then writeSegs rest data bytes (ptr + seg.PaddingBytes)
    else
      match data with
      | [] => none
      | v :: vs =>
        match WriteValueFromComponent v seg.GetFormatMode seg.GetNumBits bytes ptr with
        | none => none
        | some (n, bytes') => writeSegs rest vs bytes' (ptr + n)

/-- The outer loop `for (i = 0; i < data.size();)`: repeat the segment walk
until the data is exhausted.  A walk that consumes no value (a format with no
component segment) would loop forever in C++; that divergence is modelled as
`none`.  The loop recurses on a fuel argument to stay structurally recursive;
every iteration strictly shrinks the data, so fuel `data.length` (what
`Buffer.SetDataWithOffset` passes) never runs out on a terminating run. -/
def writeLoop : Nat → List Segment → List Value → List Nat → Nat → Option (List Nat)
  | _, _, [], bytes, _ => some bytes
  | 0, _, _ :: _, _, _ => none
  | fuel + 1, segs, v :: vs, bytes, ptr =>
    match writeSegs segs (v :: vs) bytes ptr with
    | none => none
    | some (data', bytes', ptr') =>
      if data'.length < (v :: vs).length then writeLoop fuel segs data' bytes' ptr'
      else none

/-- Mirror of `Buffer::SetDataWithOffset` (buffer.cc lines 231-276): compute
the implied value count, grow (never shrink) the element count, resize the
byte storage, zero the newly addressed range, reject oversupplied data with
the mismatch error, then run the segment-walking write loop.  The C++
`assert(new_space + offset <= GetSizeInBytes())` is the outer `Option`.  The
result pairs the returned `Result` with the mutated buffer (the C++ method
mutates `*this` even on the error return). -/
def Buffer.SetDataWithOffset (b : Buffer) (data : List Value) (offset : Nat) :
    Option (Result' × Buffer) :=
  let value_count :=
    offset / b.format.SizeInBytes * b.format.InputNeededPerElement + data.length
  let b1 := if value_count > b.ValueCount then b.SetValueCount value_count else b
  let b2 := { b1 with bytes := listResize b1.bytes b1.GetSizeInBytes }
  let new_space :=
    data.length / b2.format.InputNeededPerElement * b2.format.SizeInBytes
  if new_space + offset ≤ b2.GetSizeInBytes then
    let b3 := { b2 with bytes := zeroRange b2.bytes offset new_space }
    if data.length > b3.ElementCount * b3.format.InputNeededPerElement then
      some (.failure "Mismatched number of items in buffer", b3)
    else
      (writeLoop data.length b3.format.segments data b3.bytes offset).map fun bytes' =>
        (.success, { b3 with bytes := bytes' })
  else none

/-- Mirror of `Buffer::SetData`. -/
def Buffer.SetData (b : Buffer) (data : List Value) : Option (Result' × Buffer) :=
  b.SetDataWithOffset data 0

/-- Mirror of `Buffer::SetSizeInElements`. -/
def Buffer.SetSizeInElements (b : Buffer) (element_count : Nat) : Buffer :=
  { b with elementCount := element_count,
           bytes := listResize b.bytes (element_count * b.format.SizeInBytes) }

/-- Mirror of `Buffer::SetSizeInBytes`: asserts divisibility by the element
size (assertion failure is `none`). -/
def Buffer.SetSizeInBytes (b : Buffer) (size_in_bytes : Nat) : Option Buffer :=
  if size_in_bytes % b.format.SizeInBytes = 0 then
    some { b with elementCount := size_in_bytes / b.format.SizeInBytes,
                  bytes := listResize b.bytes size_in_bytes }
  else none

/-- Mirror of `Buffer::SetDataFromBuffer`: grow if needed, raw byte copy,
then recompute the element count as the byte length divided (integer
division) by the format size.  Always returns success. -/
def Buffer.SetDataFromBuffer (b : Buffer) (src : Buffer) (offset : Nat) :
    Result' × Buffer :=
  let bytes1 :=
    if b.bytes.length < offset + src.bytes.length then
      listResize b.bytes (offset + src.bytes.length)
    else b.bytes
  let bytes2 := copyRange bytes1 offset src.bytes
  (.success, { b with bytes := bytes2,
                      elementCount := bytes2.length / b.format.SizeInBytes })

/-- The byte-size invariant of the spec's data model: the byte storage holds
exactly `elementCount` elements of `format.SizeInBytes()` bytes each. -/
def Buffer.SizeInv (b : Buffer) : Prop :=
  b.bytes.length = b.elementCount * b.format.SizeInBytes

instance (b : Buffer) : Decidable b.SizeInv := by
  unfold Buffer.SizeInv; infer_instance

/-! ## vkscript parser model

The vkscript parser's own source is not part of this excerpt; only
`src/vkscript/parser_test.cc` is.  The definitions below are therefore
modelled from the specification (sections 4.4, 4.6, 4.8) and the test
oracle.  Two line-numbering regimes coexist in the oracle: the `[indices]`
section reports line numbers relative to the section's content (the token
`a` of `"[indices]\n1 a 3"` is reported at line 1, not input line 2, test
`IndicesBlockBadValue`), while the `[test]` section reports the 1-based line
number within the whole input (test `ErrorLineNumberBug195`). -/

/-- Split a character list at every occurrence of `c` (the separators are
dropped; empty pieces are kept, as with `String.splitOn`). -/
def splitOnCharAux (c : Char) : List Char → List Char → List (List Char)
  | acc, [] => [acc.reverse]
  | acc, x :: xs =>
    if x = c then acc.reverse :: splitOnCharAux c [] xs
    else splitOnCharAux c (x :: acc) xs

/-- The 1-based list of lines of an input string. -/
def linesOf (s : String) : List String :=
  (splitOnCharAux '\n' [] s.data).map String.mk

/-- Modelled from the spec: strip a `#`-to-end-of-line comment. -/
def stripComment (s : String) : String :=
  String.mk (s.data.takeWhile fun c => c ≠ '#')

/-- Whitespace-token splitter: gather maximal runs of non-blank characters. -/
def splitTokensAux : List Char → List Char → List (List Char)
  | acc, [] => if acc.isEmpty then [] else [acc.reverse]
  | acc, x :: xs =>
    if x = ' ' ∨ x = '\t' then
      if acc.isEmpty then splitTokensAux [] xs
      else acc.reverse :: splitTokensAux [] xs
    else splitTokensAux (x :: acc) xs

/-- Modelled from the spec: split a comment-stripped line into
whitespace-separated tokens. -/
def tokenizeLine (s : String) : List String :=
  (splitTokensAux [] (stripComment s).data).map String.mk

/-- Numeric value of a decimal digit character. -/
def digitVal (c : Char) : Nat := c.toNat - 48

/-- Modelled from the spec: parse a token as a non-negative base-10 integer;
any other token is invalid. -/
def parseDec (s : String) : Option Nat :=
  if s.data ≠ [] && s.data.all Char.isDigit then
    some (s.data.foldl (fun a c => a * 10 + digitVal c) 0)
  else none

/-- Error string `"<line>: <message>"` (spec section 6). -/
def lineErr (ln : Nat) (msg : String) : String :=
  toString ln ++ ": " ++ msg

/-- Modelled from the spec (section 4.6): process the tokens of one indices
line in order; the first token that is not a valid non-negative base-10
integer aborts with the invalid-value error, the first one whose value
exceeds the unsigned 16-bit range aborts with the too-large error, and the
accepted values accumulate in order. -/
def parseIndicesTokens (ln : Nat) : List String → Except String (List Nat)
  | [] => .ok []
  | t :: ts =>
    match parseDec t with
    | none => .error (lineErr ln ("Invalid value in indices block: " ++ t))
    | some v =>
      if v > 65535 then
        .error (lineErr ln ("Value too large in indices block: " ++ t))
      else
        match parseIndicesTokens ln ts with
        | .error e => .error e
        | .ok vs => .ok (v :: vs)

/-- Modelled from the spec: process the content lines of an `[indices]`
section, counting lines from `ln` (blank and comment lines still advance the
counter) and accumulating all accepted values across lines in order. -/
def parseIndicesLines (ln : Nat) : List String → Except String (List Nat)
  | [] => .ok []
  | l :: ls =>
    match parseIndicesTokens ln (tokenizeLine l) with
    | .error e => .error e
    | .ok vs =>
      match parseIndicesLines (ln + 1) ls with
      | .error e => .error e
      | .ok rest => .ok (vs ++ rest)

/-- Modelled from the spec: the result of the indices section parser, a data
buffer of `BufferType` index whose scalar type is 16-bit unsigned. -/
structure DataBuffer where
  bufferType : BufferType
  datumMode : FormatMode
  datumBits : Nat
  data : List Nat
deriving DecidableEq

/-- Modelled from the spec (section 4.6): parse a whole `[indices]` section
(content lines, numbered from 1) into one index buffer. -/
def parseIndicesBlock (lines : List String) : Except String DataBuffer :=
  match parseIndicesLines 1 lines with
  | .error e => .error e
  | .ok vs => .ok ⟨.index, .UInt, 16, vs⟩

/-- Modelled from the spec (section 3): the clear-family commands of the
test section excerpt. -/
inductive Command
  | clearColor (r g b a : Rat)
  | clearDepth (v : Rat)
  | clearStencil (v : Nat)
  | clear
deriving DecidableEq

/-- Modelled from the spec: parse a decimal literal with an optional sign
and fractional part (the argument format of the clear commands). -/
def parseNum (s : String) : Option Rat :=
  let core (ds : List Char) : Option Rat :=
    let intPart := ds.takeWhile fun c => c ≠ '.'
    let rest := ds.dropWhile fun c => c ≠ '.'
    let fracPart := rest.drop 1
    if intPart.all Char.isDigit ∧ fracPart.all Char.isDigit ∧
        intPart ≠ [] ∧ (rest ≠ [] → rest.headD '.' = '.') ∧
        (rest.drop 1 ≠ [] → fracPart ≠ []) then
      some ((intPart.foldl (fun a c => a * 10 + digitVal c) 0 : Nat) +
        (fracPart.foldl (fun a c => a * 10 + digitVal c) 0 : Nat) /
          ((10 : Rat) ^ fracPart.length))
    else none
  match s.data with
  | '-' :: ds => (core ds).map fun q => -q
  | ds => core ds

/-- Modelled from the spec (section 4.8): the recognized first keywords of
the test-command vocabulary in this excerpt. -/
def knownTestCommands : List String := ["clear"]

/-- Modelled from the spec (section 4.8): parse the arguments of a `clear`
command (bare clear, or color/depth/stencil with numeric arguments;
malformed arguments yield an error whose wording the excerpt does not pin
down). -/
def parseClearArgs (ln : Nat) (args : List String) : Except String Command :=
  match args with
  | [] => .ok .clear
  | "color" :: rest =>
    match rest.mapM parseNum with
    | some [r, g, b, a] => .ok (.clearColor r g b a)
    | _ => .error (lineErr ln "Invalid conversion to double")
  | "depth" :: rest =>
    match rest.mapM parseNum with
    | some [v] => .ok (.clearDepth v)
    | _ => .error (lineErr ln "Invalid conversion to double")
  | "stencil" :: rest =>
    match rest.mapM parseDec with
    | some [v] => .ok (.clearStencil v)
    | _ => .error (lineErr ln "Invalid conversion to double")
  | _ => .error (lineErr ln "Invalid conversion to double")

/-- Modelled from the spec (section 4.8): parse one test-section command
line.  An unrecognized first keyword yields the unknown-command error with
the line number `ln`. -/
def parseCommand (ln : Nat) (toks : List String) : Except String Command :=
  match toks with
  | [] => .error (lineErr ln "Unknown command: ")
  | cmd :: args =>
    if cmd = "clear" then parseClearArgs ln args
    else .error (lineErr ln ("Unknown command: " ++ cmd))

/-- True when a line contributes no tokens (blank, or comment-only). -/
def isSkippable (s : String) : Bool :=
  (tokenizeLine s).isEmpty

/-- True when a line opens a new bracket-delimited section. -/
def isSectionHeader (s : String) : Bool :=
  match s.data with
  | '[' :: _ => true
  | _ => false

/-- The section kinds the model distinguishes while walking the input. -/
inductive SectionKind
  | outside
  | test
  | indices
  | other
deriving DecidableEq

/-- Section kind selected by a header line. -/
def sectionOf (s : String) : SectionKind :=
  if s = "[test]" then .test else if s = "[indices]" then .indices else .other

/-- Modelled from the spec (sections 4.4, 4.8) and the test oracle: walk the
input lines with a global 1-based line counter `ln` and a per-section local
counter `loc`, dispatching on the current section.  `[test]` content is
parsed as commands, reporting errors at the *global* line number; `[indices]`
content is parsed with `parseIndicesTokens` at the *local* line number (the
accumulated values are dropped here — `parseIndicesBlock` models the full
section result); all other section content is skipped.  Parsing stops at the
first error.  The accepted commands accumulate in order. -/
def runScript : Nat → Nat → SectionKind → List String → Except String (List Command)
  | _, _, _, [] => .ok []
  | ln, loc, sec, l :: ls =>
    if isSectionHeader l then runScript (ln + 1) 1 (sectionOf l) ls
    else
      match sec with
      | .test =>
        if isSkippable l then runScript (ln + 1) (loc + 1) sec ls
        else
          match parseCommand ln (tokenizeLine l) with
          | .error e => .error e
          | .ok c =>
            match runScript (ln + 1) (loc + 1) sec ls with
            | .error e => .error e
            | .ok cs => .ok (c :: cs)
      | .indices =>
        match parseIndicesTokens loc (tokenizeLine l) with
        | .error e => .error e
        | .ok _ => runScript (ln + 1) (loc + 1) sec ls
      | _ => runScript (ln + 1) (loc + 1) sec ls

/-- Modelled from the spec: parse a whole vkscript input, splitting it into
lines and walking them from global line 1. -/
def parseVkScript (input : String) : Except String (List Command) :=
  runScript 1 1 .outside (linesOf input)

/-- Decidable equality for `Except`, written out so that it reduces inside
the kernel (used by the concrete witnesses below). -/
instance instDecEqExcept {α β : Type} [DecidableEq α] [DecidableEq β] :
    DecidableEq (Except α β)
  | .error a, .error b =>
    match decEq a b with
    | isTrue h => isTrue (congrArg Except.error h)
    | isFalse h => isFalse fun hh => h (Except.error.inj hh)
  | .error _, .ok _ => isFalse fun hh => Except.noConfusion hh
  | .ok _, .error _ => isFalse fun hh => Except.noConfusion hh
  | .ok a, .ok b =>
    match decEq a b with
    | isTrue h => isTrue (congrArg Except.ok h)
    | isFalse h => isFalse fun hh => h (Except.ok.inj hh)

/-! ## Concrete fixtures used by the witnesses and counterexamples -/

/-- A one-component unsigned 8-bit format (such as amber's R8_UINT). -/
def exFmtU8 : Format := ⟨[.component .UInt 8], false⟩

/-- A one-component unsigned 16-bit format (such as amber's R16_UINT). -/
def exFmtU16 : Format := ⟨[.component .UInt 16], false⟩

/-- A three-component unsigned 8-bit format (such as amber's R8G8B8_UINT). -/
def exFmtU8x3 : Format :=
  ⟨[.component .UInt 8, .component .UInt 8, .component .UInt 8], false⟩

/-- An empty buffer over `exFmtU16`. -/
def exBufEmptyU16 : Buffer := ⟨.color, exFmtU16, [], 0, 0, 0, 0⟩

/-- A one-element, one-byte source buffer over `exFmtU8`. -/
def exBufOneByte : Buffer := ⟨.color, exFmtU8, [7], 1, 0, 0, 0⟩

/-- An empty buffer over `exFmtU8`. -/
def exBufEmptyU8 : Buffer := ⟨.color, exFmtU8, [], 0, 0, 0, 0⟩

/-- An empty buffer over `exFmtU8x3`. -/
def exBufEmpty3 : Buffer := ⟨.color, exFmtU8x3, [], 0, 0, 0, 0⟩

/-- A one-element buffer over `exFmtU8x3` holding bytes 1, 2, 3. -/
def exBufA : Buffer := ⟨.color, exFmtU8x3, [1, 2, 3], 1, 0, 0, 0⟩

/-- A one-element buffer over `exFmtU8x3` holding bytes 1, 5, 9. -/
def exBufB : Buffer := ⟨.color, exFmtU8x3, [1, 5, 9], 1, 0, 0, 0⟩

/-- Four integer input values (one more than `exFmtU8x3` holds per element). -/
def exData4 : List Value := [.integer 1, .integer 2, .integer 3, .integer 4]

/-- The input of the parser test `ErrorLineNumberBug195`: the unknown
command sits on line 9 of the whole input. -/
def exBug195Input : String :=
  "[compute shader]\n#version 430\n\nvoid main() \x7b\n\x7d\n\n[test]\n# Error must report \"9: Unknown command: unknown\"\nunknown\n\x7d"

/-- The result of `exBufEmpty3.SetDataWithOffset exData4 0`: the growth
floors 4 values to one 3-component element, so the call stops with the
mismatch error after zero-filling the one grown element. -/
def exOut4 : Result' × Buffer :=
  (.failure "Mismatched number of items in buffer",
    ⟨.color, exFmtU8x3, [0, 0, 0], 1, 0, 0, 0⟩)

/-! ## Helper lemmas -/

lemma lor_disjoint (b k a : Nat) (h : a < 2 ^ k) : (b <<< k) ||| a = b <<< k + a := by
  apply Nat.eq_of_testBit_eq
  intro i
  rcases lt_or_le i k with hik | hik
  · rw [Nat.testBit_lor, Nat.testBit_shiftLeft]
    have h1 : ¬ (i ≥ k) := by omega
    simp only [h1, decide_False, Bool.false_and, Bool.false_or]
    rw [Nat.shiftLeft_eq]
    rw [show b * 2 ^ k + a = 2 ^ k * b + a by ring]
    have h2 := Nat.testBit_mod_two_pow (2 ^ k * b + a) k i
    rw [Nat.mul_add_mod, Nat.mod_eq_of_lt h] at h2
    rw [h2]
    simp [hik]
  · rw [Nat.testBit_lor, Nat.testBit_shiftLeft]
    have ha : a.testBit i = false :=
      Nat.testBit_lt_two_pow (lt_of_lt_of_le h (Nat.pow_le_pow_right (by norm_num) hik))
    simp only [ge_iff_le, hik, decide_True, Bool.true_and, ha, Bool.or_false]
    rw [Nat.shiftLeft_eq, Nat.testBit_to_div_mod, Nat.testBit_to_div_mod]
    have hdiv : (b * 2 ^ k + a) / 2 ^ i = b / 2 ^ (i - k) := by
      have hpow : (2 : ℕ) ^ i = 2 ^ k * 2 ^ (i - k) := by
        rw [← Nat.pow_add]; congr 1; omega
      rw [hpow, ← Nat.div_div_eq_div_mul,
        show b * 2 ^ k + a = 2 ^ k * b + a by ring,
        Nat.mul_add_div (Nat.two_pow_pos k), Nat.div_eq_of_lt h, Nat.add_zero]
    rw [hdiv]

lemma length_listResize (l : List Nat) (n : Nat) : (listResize l n).length = n := by
  unfold listResize
  split <;> simp <;> omega

lemma length_zeroRange (n : Nat) : ∀ (l : List Nat) (off : Nat),
    (zeroRange l off n).length = l.length := by
  induction n with
  | zero => intro l off; rfl
  | succ n ih => intro l off; rw [zeroRange, ih, List.length_set]

lemma length_copyRange (src : List Nat) : ∀ (l : List Nat) (off : Nat),
    (copyRange l off src).length = l.length := by
  induction src with
  | nil => intro l off; rfl
  | cons x xs ih => intro l off; rw [copyRange, ih, List.length_set]

lemma length_writeLE (n : Nat) : ∀ (l : List Nat) (ptr x : Nat),
    (writeLE l ptr n x).length = l.length := by
  induction n with
  | zero => intro l ptr x; rfl
  | succ n ih => intro l ptr x; rw [writeLE, ih, List.length_set]

lemma WriteValueFromComponent_spec {v : Value} {mode : FormatMode} {bits : Nat}
    {bytes : List Nat} {ptr : Nat} {out : Nat × List Nat}
    (h : WriteValueFromComponent v mode bits bytes ptr = some out) :
    out.2.length = bytes.length ∧ out.1 = bits / 8 := by
  unfold WriteValueFromComponent at h
  by_cases h1 : IsInt8 mode bits = true
  · rw [if_pos h1] at h
    injection h with hh; subst hh
    simp only [IsInt8, Bool.and_eq_true, decide_eq_true_eq] at h1
    exact ⟨by simp [length_writeLE], by omega⟩
  rw [if_neg h1] at h
  by_cases h2 : IsInt16 mode bits = true
  · rw [if_pos h2] at h
    injection h with hh; subst hh
    simp only [IsInt16, Bool.and_eq_true, decide_eq_true_eq] at h2
    exact ⟨by simp [length_writeLE], by omega⟩
  rw [if_neg h2] at h
  by_cases h3 : IsInt32 mode bits = true
  · rw [if_pos h3] at h
    injection h with hh; subst hh
    simp only [IsInt32, Bool.and_eq_true, decide_eq_true_eq] at h3
    exact ⟨by simp [length_writeLE], by omega⟩
  rw [if_neg h3] at h
  by_cases h4 : IsInt64 mode bits = true
  · rw [if_pos h4] at h
    injection h with hh; subst hh
    simp only [IsInt64, Bool.and_eq_true, decide_eq_true_eq] at h4
    exact ⟨by simp [length_writeLE], by omega⟩
  rw [if_neg h4] at h
  by_cases h5 : IsUint8 mode bits = true
  · rw [if_pos h5] at h
    injection h with hh; subst hh
    simp only [IsUint8, Bool.and_eq_true, decide_eq_true_eq] at h5
    exact ⟨by simp [length_writeLE], by omega⟩
  rw [if_neg h5] at h
  by_cases h6 : IsUint16 mode bits = true
  · rw [if_pos h6] at h
    injection h with hh; subst hh
    simp only [IsUint16, Bool.and_eq_true, decide_eq_true_eq] at h6
    exact ⟨by simp [length_writeLE], by omega⟩
  rw [if_neg h6] at h
  by_cases h7 : IsUint32 mode bits = true
  · rw [if_pos h7] at h
    injection h with hh; subst hh
    simp only [IsUint32, Bool.and_eq_true, decide_eq_true_eq] at h7
    exact ⟨by simp [length_writeLE], by omega⟩
  rw [if_neg h7] at h
  by_cases h8 : IsUint64 mode bits = true
  · rw [if_pos h8] at h
    injection h with hh; subst hh
    simp only [IsUint64, Bool.and_eq_true, decide_eq_true_eq] at h8
    exact ⟨by simp [length_writeLE], by omega⟩
  rw [if_neg h8] at h
  by_cases h9 : IsFloat16 mode bits = true
  · rw [if_pos h9] at h
    cases hf : FloatToHexFloat16 v.asFloatBits <;>
      simp only [hf, Option.map_none', Option.map_some'] at h
    · exact Option.noConfusion h
    · injection h with hh; subst hh
      simp only [IsFloat16, Bool.and_eq_true, decide_eq_true_eq] at h9
      exact ⟨by simp [length_writeLE], by omega⟩
  rw [if_neg h9] at h
  by_cases h10 : IsFloat32 mode bits = true
  · rw [if_pos h10] at h
    injection h with hh; subst hh
    simp only [IsFloat32, Bool.and_eq_true, decide_eq_true_eq] at h10
    exact ⟨by simp [length_writeLE], by omega⟩
  rw [if_neg h10] at h
  by_cases h11 : IsFloat64 mode bits = true
  · rw [if_pos h11] at h
    injection h with hh; subst hh
    simp only [IsFloat64, Bool.and_eq_true, decide_eq_true_eq] at h11
    exact ⟨by simp [length_writeLE], by omega⟩
  rw [if_neg h11] at h
  exact Option.noConfusion h

/-- Behavior of one segment walk of the write loop: the byte-list length is
preserved, exactly one input value is consumed per non-padding segment (in
order, so the leftover data is a `drop`), and the write cursor advances by
the total byte size of the walked segments. -/
lemma writeSegs_spec : ∀ (segs : List Segment) (data : List Value)
    (bytes : List Nat) (ptr : Nat) (out : List Value × List Nat × Nat),
    writeSegs segs data bytes ptr = some out →
    out.2.1.length = bytes.length ∧
    out.1 = data.drop (segs.filter fun s => !s.IsPadding).length ∧
    (segs.filter fun s => !s.IsPadding).length ≤ data.length ∧
    out.2.2 = ptr + (segs.map Segment.SizeInBytes).sum := by
  intro segs
  induction segs with
  | nil =>
    intro data bytes ptr out h
    injection h with h'
    subst h'
    simp
  | cons seg rest ih =>
    intro data bytes ptr out h
    simp only [writeSegs] at h
    by_cases hp : seg.IsPadding = true
    · rw [if_pos hp] at h
      have hrec := ih data bytes (ptr + seg.PaddingBytes) out h
      cases seg with
      | padding n =>
        have h4 := hrec.2.2.2
        have hfil : List.filter (fun s => !s.IsPadding) (Segment.padding n :: rest)
            = List.filter (fun s => !s.IsPadding) rest := by
          simp [Segment.IsPadding]
        have hmap : (List.map Segment.SizeInBytes (Segment.padding n :: rest)).sum
            = n + (List.map Segment.SizeInBytes rest).sum := by
          simp [Segment.SizeInBytes]
        rw [hfil, hmap]
        simp only [Segment.PaddingBytes] at h4
        exact ⟨hrec.1, hrec.2.1, hrec.2.2.1, by omega⟩
      | component m b => simp [Segment.IsPadding] at hp
    · rw [if_neg hp] at h
      cases data with
      | nil => exact Option.noConfusion h
      | cons v vs =>
        dsimp only at h
        cases hw : WriteValueFromComponent v seg.GetFormatMode seg.GetNumBits bytes ptr with
        | none => rw [hw] at h; exact Option.noConfusion h
        | some w =>
          obtain ⟨n, bytes2⟩ := w
          rw [hw] at h
          dsimp only at h
          have hwspec := WriteValueFromComponent_spec hw
          dsimp only at hwspec
          have hrec := ih vs bytes2 (ptr + n) out h
          cases seg with
          | padding k => simp [Segment.IsPadding] at hp
          | component m b =>
            have h4 := hrec.2.2.2
            simp only [Segment.GetNumBits] at hwspec
            have hfil : List.filter (fun s => !s.IsPadding) (Segment.component m b :: rest)
                = Segment.component m b :: List.filter (fun s => !s.IsPadding) rest := by
              simp [Segment.IsPadding]
            have hmap : (List.map Segment.SizeInBytes (Segment.component m b :: rest)).sum
                = b / 8 + (List.map Segment.SizeInBytes rest).sum := by
              simp [Segment.SizeInBytes]
            rw [hfil, hmap]
            simp only [List.length_cons, List.drop_succ_cons]
            refine ⟨by omega, hrec.2.1, ?_, by omega⟩
            have h5 := hrec.2.2.1
            simp only [List.length_cons] at *
            omega

/-- The write loop preserves the byte-list length. -/
lemma writeLoop_length : ∀ (fuel : Nat) (segs : List Segment)
    (data : List Value) (bytes : List Nat) (ptr : Nat) (out : List Nat),
    writeLoop fuel segs data bytes ptr = some out → out.length = bytes.length := by
  intro fuel
  induction fuel with
  | zero =>
    intro segs data bytes ptr out h
    cases data with
    | nil => injection h with h'; subst h'; rfl
    | cons v vs => exact Option.noConfusion h
  | succ fuel ih =>
    intro segs data bytes ptr out h
    cases data with
    | nil => injection h with h'; subst h'; rfl
    | cons v vs =>
      simp only [writeLoop] at h
      cases hw : writeSegs segs (v :: vs) bytes ptr with
      | none => rw [hw] at h; exact Option.noConfusion h
      | some w =>
        obtain ⟨data2, bytes2, ptr2⟩ := w
        rw [hw] at h
        simp only at h
        split at h
        · have h1 := (writeSegs_spec _ _ _ _ _ hw).1
          have h2 := ih segs data2 bytes2 ptr2 out h
          simp only at h1
          omega
        · exact Option.noConfusion h

end Amber

namespace Amber

/-- Sums of squares are nonnegative. -/
lemma sumSq_nonneg (l : List Rat) : 0 ≤ (l.map fun v => v * v).sum := by
  apply List.sum_nonneg
  intro x hx
  simp only [List.mem_map] at hx
  obtain ⟨v, _, rfl⟩ := hx
  exact mul_self_nonneg v

/-- The rational test `sqrtGTQ` decides exactly the real comparison
`tol < sqrt q` that the C++ `rmse > tolerance` performs (for the
nonnegative `q` that a mean of squares always is). -/
lemma sqrtGTQ_iff (q tol : Rat) :
    sqrtGTQ q tol = true ↔ (tol : ℝ) < Real.sqrt (q : ℝ) := by
  unfold sqrtGTQ
  rw [Bool.or_eq_true, decide_eq_true_eq, decide_eq_true_eq]
  by_cases htol : tol < 0
  · simp only [htol, true_or, true_iff]
    calc (tol : ℝ) < 0 := by exact_mod_cast htol
      _ ≤ Real.sqrt (q : ℝ) := Real.sqrt_nonneg _
  · have h0 : (0 : ℝ) ≤ (tol : ℝ) := by exact_mod_cast not_lt.mp htol
    rw [Real.lt_sqrt h0]
    constructor
    · rintro (h | h)
      · exact absurd h htol
      · have hc : ((tol * tol : ℚ) : ℝ) < ((q : ℚ) : ℝ) := by exact_mod_cast h
        calc (tol : ℝ) ^ 2 = ((tol * tol : ℚ) : ℝ) := by push_cast; ring
          _ < _ := hc
    · intro h
      right
      have hc : ((tol * tol : ℚ) : ℝ) < ((q : ℚ) : ℝ) := by
        calc ((tol * tol : ℚ) : ℝ) = (tol : ℝ) ^ 2 := by push_cast; ring
          _ < _ := h
      exact_mod_cast hc

/-- The scan counter agrees with the declarative count of differing
positions. -/
lemma countDiffs_eq : ∀ (l1 l2 : List Nat),
    countDiffs l1 l2 = ((l1.zip l2).filter fun p => p.1 != p.2).length := by
  intro l1
  induction l1 with
  | nil => intro l2; cases l2 <;> rfl
  | cons a as ih =>
    intro l2
    cases l2 with
    | nil => rfl
    | cons b bs =>
      rw [countDiffs, ih bs, List.zip_cons_cons]
      by_cases hab : a = b
      · simp [hab]
      · simp [hab, List.filter_cons_of_pos]
        omega

/-- The scan for the first difference finds exactly the first index at which
the zipped lists disagree, together with the two byte values there. -/
lemma firstDiff_eq : ∀ (l1 l2 : List Nat) (i : Nat), l1.length = l2.length →
    l1 ≠ l2 →
    firstDiff i l1 l2 =
      some (i + ((l1.zip l2).findIdx fun p => p.1 != p.2),
        l1.getD ((l1.zip l2).findIdx fun p => p.1 != p.2) 0,
        l2.getD ((l1.zip l2).findIdx fun p => p.1 != p.2) 0) := by
  intro l1
  induction l1 with
  | nil =>
    intro l2 i hlen hne
    cases l2 with
    | nil => exact absurd rfl hne
    | cons b bs => cases hlen
  | cons a as ih =>
    intro l2 i hlen hne
    cases l2 with
    | nil => cases hlen
    | cons b bs =>
      rw [firstDiff, List.zip_cons_cons]
      by_cases hab : a = b
      · have hne2 : as ≠ bs := fun hh => hne (by rw [hab, hh])
        have hlen2 : as.length = bs.length := by
          simpa using hlen
        rw [if_pos hab, ih bs (i + 1) hlen2 hne2]
        have hb : (a != b) = false := by simp [hab]
        have hfind : (((a, b) :: as.zip bs).findIdx fun p => p.1 != p.2)
            = ((as.zip bs).findIdx fun p => p.1 != p.2) + 1 := by
          rw [List.findIdx_cons]
          simp [hb]
        rw [hfind]
        simp only [List.getD_cons_succ]
        have harith : i + 1 + ((as.zip bs).findIdx fun p => p.1 != p.2)
            = i + (((as.zip bs).findIdx fun p => p.1 != p.2) + 1) := by omega
        rw [harith]
      · rw [if_neg hab]
        have hb : (a != b) = true := by simp [hab]
        have hfind : (((a, b) :: as.zip bs).findIdx fun p => p.1 != p.2) = 0 := by
          rw [List.findIdx_cons]
          simp [hb]
        rw [hfind]
        simp

/-- The first-difference scan returns nothing exactly on equal lists (of
equal length). -/
lemma firstDiff_none_iff : ∀ (l1 l2 : List Nat) (i : Nat),
    l1.length = l2.length → (firstDiff i l1 l2 = none ↔ l1 = l2) := by
  intro l1
  induction l1 with
  | nil =>
    intro l2 i hlen
    cases l2 with
    | nil => simp [firstDiff]
    | cons b bs => cases hlen
  | cons a as ih =>
    intro l2 i hlen
    cases l2 with
    | nil => cases hlen
    | cons b bs =>
      rw [firstDiff]
      by_cases hab : a = b
      · rw [if_pos hab, ih bs (i + 1) (by simpa using hlen)]
        subst hab
        simp
      · rw [if_neg hab]
        simp [hab]

end Amber

namespace Amber

/-! ## Claim theorems -/

/-- Claim C4 (confirmed): `IsEqual` returns an error when Format, element
count, width, height, or byte length differ; with those equal it succeeds
iff the byte sequences are identical, and on any mismatch the failure
message reports the total number of differing bytes together with the index
and the two byte values at the first differing byte only. -/
theorem C4_isEqual (b1 b2 : Buffer) :
    ((b2.format ≠ b1.format ∨ b2.elementCount ≠ b1.elementCount ∨
        b2.width ≠ b1.width ∨ b2.height ≠ b1.height ∨
        b2.bytes.length ≠ b1.bytes.length) →
      ∃ m, b1.IsEqual b2 = .failure m) ∧
    (b2.format = b1.format → b2.elementCount = b1.elementCount →
      b2.width = b1.width → b2.height = b1.height →
      b2.bytes.length = b1.bytes.length →
      ((b1.IsEqual b2 = .success ↔ b1.bytes = b2.bytes) ∧
        (b1.bytes ≠ b2.bytes →
          b1.IsEqual b2 = .failure
            ("Buffers have different values. " ++
              toString ((b1.bytes.zip b2.bytes).filter fun p => p.1 != p.2).length ++
              " values differed, first difference at byte " ++
              toString ((b1.bytes.zip b2.bytes).findIdx fun p => p.1 != p.2) ++
              " values " ++
              toString (b1.bytes.getD
                ((b1.bytes.zip b2.bytes).findIdx fun p => p.1 != p.2) 0) ++
              " != " ++
              toString (b2.bytes.getD
                ((b1.bytes.zip b2.bytes).findIdx fun p => p.1 != p.2) 0))))) := by
  constructor
  · intro hdiff
    unfold Buffer.IsEqual
    split_ifs with h1 h2 h3 h4 h5
    · exact ⟨_, rfl⟩
    · exact ⟨_, rfl⟩
    · exact ⟨_, rfl⟩
    · exact ⟨_, rfl⟩
    · exact ⟨_, rfl⟩
    · tauto
  · intro hf he hw hh hl
    have hlen : b1.bytes.length = b2.bytes.length := hl.symm
    unfold Buffer.IsEqual
    rw [if_neg (by simp [hf]), if_neg (by simp [he]), if_neg (by simp [hw]),
      if_neg (by simp [hh]), if_neg (by simp [hl])]
    constructor
    · cases hfd : firstDiff 0 b1.bytes b2.bytes with
      | none =>
        simp only [hfd]
        constructor
        · intro _; exact (firstDiff_none_iff b1.bytes b2.bytes 0 hlen).mp hfd
        · intro _; trivial
      | some t =>
        simp only [hfd]
        constructor
        · intro hcon; exact Result'.noConfusion hcon
        · intro heq
          rw [(firstDiff_none_iff b1.bytes b2.bytes 0 hlen).mpr heq] at hfd
          exact Option.noConfusion hfd
    · intro hne
      rw [firstDiff_eq b1.bytes b2.bytes 0 hlen hne]
      simp only [Nat.zero_add, countDiffs_eq]

/-- Claim C4 witness: two concrete same-shape buffers differing in two bytes;
the failure message names both the count (2) and the first position (byte 1,
values 2 and 5). -/
theorem C4_witness :
    exBufB.format = exBufA.format ∧
    exBufA.IsEqual exBufB =
      .failure ("Buffers have different values. 2 values differed, " ++
        "first difference at byte 1 values 2 != 5") := by
  constructor
  · decide
  · have h := ((C4_isEqual exBufA exBufB).2 rfl rfl rfl rfl rfl).2 (by decide)
    rw [h]
    decide

/-- Claim C10 (confirmed): for zero-element buffers that pass all of
`CompareRMSE`'s shape checks, the diff list is empty, the C++ divides
`0.0` by `0` producing an IEEE NaN whose comparison against any tolerance is
false, and the comparison therefore succeeds for every tolerance, negative
tolerances included (the model encodes that NaN branch explicitly, see
`Buffer.CompareRMSE`). -/
theorem C10_emptyRMSE (b1 b2 : Buffer) (tol : Rat)
    (hf : b2.format = b1.format) (he1 : b1.elementCount = 0)
    (he2 : b2.elementCount = 0) (hw : b2.width = b1.width)
    (hh : b2.height = b1.height) :
    b1.CompareRMSE b2 tol = some .success ∧ b1.CalculateDiffs b2 = some [] := by
  have hdiffs : b1.CalculateDiffs b2 = some [] := by
    unfold Buffer.CalculateDiffs Buffer.ElementCount
    rw [he1]
    rfl
  refine ⟨?_, hdiffs⟩
  unfold Buffer.CompareRMSE
  rw [if_neg (by simp [hf]), if_neg (by simp [he1, he2]), if_neg (by simp [hw]),
    if_neg (by simp [hh]),
    if_neg (by simp [Buffer.ValueCount, hf, he1, he2]), hdiffs]
  rfl

/-- Claim C10 witness: the concrete empty buffer compared against itself at
the negative tolerance -5 succeeds. -/
theorem C10_witness :
    exBufEmptyU8.CompareRMSE exBufEmptyU8 (-5) = some .success := by
  exact (C10_emptyRMSE exBufEmptyU8 exBufEmptyU8 (-5) rfl rfl rfl rfl rfl).1

/-- Claim C5 (confirmed): over the 32-bit representation of the input float,
when the rebiased exponent fits in the 5-bit field (raw exponent in
[112, 144)) the float16 encoding is exactly the sign bit at bit 15, the
exponent minus 112 at bits 10-14 and the mantissa truncated by a 13-bit
right shift at bits 0-9; any exponent that overflows the field makes the
assertion fire (modelled as `none`), a fatal invariant violation rather than
a recoverable error. -/
theorem C5_float16 (h : Nat) (hlt : h < 2 ^ 32) :
    (112 ≤ h / 2 ^ 23 % 2 ^ 8 → h / 2 ^ 23 % 2 ^ 8 < 144 →
      FloatToHexFloat16 h =
        some (h / 2 ^ 31 * 2 ^ 15 + (h / 2 ^ 23 % 2 ^ 8 - 112) * 2 ^ 10 +
          h % 2 ^ 23 / 2 ^ 13)) ∧
    (h / 2 ^ 23 % 2 ^ 8 < 112 ∨ 144 ≤ h / 2 ^ 23 % 2 ^ 8 →
      FloatToHexFloat16 h = none) := by
  constructor
  · intro h112 h144
    unfold FloatToHexFloat16 FloatExponent FloatSign FloatMantissa
    rw [Nat.shiftRight_eq_div_pow, Nat.shiftRight_eq_div_pow,
      Nat.shiftRight_eq_div_pow]
    have hwrap : (h / 2 ^ 23 % 2 ^ 8 + 2 ^ 32 - 112) % 2 ^ 32
        = h / 2 ^ 23 % 2 ^ 8 - 112 := by omega
    rw [hwrap, if_pos (by omega), Option.map_some']
    have hm13 : h % 2 ^ 23 / 2 ^ 13 < 2 ^ 10 := by omega
    have hinner : ((h / 2 ^ 23 % 2 ^ 8 - 112) <<< 10) ||| (h % 2 ^ 23 / 2 ^ 13)
        = (h / 2 ^ 23 % 2 ^ 8 - 112) * 2 ^ 10 + h % 2 ^ 23 / 2 ^ 13 := by
      rw [lor_disjoint _ _ _ hm13, Nat.shiftLeft_eq]
    have houter : (h / 2 ^ 23 % 2 ^ 8 - 112) * 2 ^ 10 + h % 2 ^ 23 / 2 ^ 13
        < 2 ^ 15 := by omega
    rw [Nat.lor_assoc, hinner, lor_disjoint _ _ _ houter, Nat.shiftLeft_eq]
    refine congrArg some ?_
    omega
  · intro hover
    unfold FloatToHexFloat16 FloatExponent
    rw [Nat.shiftRight_eq_div_pow]
    rw [if_neg (by omega)]
    rfl

/-- Claim C5 witness: the bit pattern of 1.0f (0x3F800000, raw exponent 127)
encodes to 0x3C00, the float16 pattern of 1.0; and the pattern 0x00000001
(raw exponent 0, subnormal) trips the exponent assertion. -/
theorem C5_witness :
    112 ≤ 0x3F800000 / 2 ^ 23 % 2 ^ 8 ∧
    FloatToHexFloat16 0x3F800000 = some 0x3C00 ∧
    FloatToHexFloat16 0x00000001 = none := by
  refine ⟨by norm_num, ?_, ?_⟩
  · have hc := (C5_float16 0x3F800000 (by norm_num)).1 (by norm_num) (by norm_num)
    rw [hc]
    norm_num
  · exact (C5_float16 0x00000001 (by norm_num)).2 (by norm_num)

end Amber

namespace Amber

/-- Claim C1 counterexample: `SetDataFromBuffer` violates the byte-size
invariant.  Copying a 1-byte source into an empty buffer whose format is 2
bytes per element leaves 1 byte of storage but recomputes
`elementCount = 1 / 2 = 0`, so `bytes.size() = 1 ≠ 0 * 2`. -/
theorem C1_counterexample :
    ¬ (exBufEmptyU16.SetDataFromBuffer exBufOneByte 0).2.SizeInv := by
  decide

/-- Claim C1 as amended: the invariant
`bytes.size() = elementCount * format.SizeInBytes()` holds after
`SetData`, `SetDataWithOffset` and `SetSizeInElements`, and after
`SetSizeInBytes` whenever its divisibility assertion passes; after
`SetDataFromBuffer` it holds exactly when the resulting byte length (the
maximum of the old length and `offset + src.bytes.size()`) is divisible by
the per-element byte size — otherwise the integer division that recomputes
`elementCount` rounds down and the invariant breaks. -/
theorem C1_amended (b : Buffer) (hsz : 0 < b.format.SizeInBytes) :
    (∀ data offset out, b.SetDataWithOffset data offset = some out →
      out.2.SizeInv) ∧
    (∀ data out, b.SetData data = some out → out.2.SizeInv) ∧
    (∀ n, (b.SetSizeInElements n).SizeInv) ∧
    (∀ n b2, b.SetSizeInBytes n = some b2 → b2.SizeInv) ∧
    (∀ src offset,
      b.format.SizeInBytes ∣ max b.bytes.length (offset + src.bytes.length) →
      (b.SetDataFromBuffer src offset).2.SizeInv) := by
  have hmain : ∀ data offset out, b.SetDataWithOffset data offset = some out →
      out.2.SizeInv := by
    intro data offset out h
    simp only [Buffer.SetDataWithOffset] at h
    split at h
    all_goals split at h
    all_goals try exact Option.noConfusion h
    all_goals split at h
    all_goals try (injection h with hh; subst hh; simp [Buffer.SizeInv, Buffer.GetSizeInBytes, length_zeroRange, length_listResize])
    all_goals rw [Option.map_eq_some'] at h
    all_goals obtain ⟨bytes2, hwl, hout⟩ := h
    all_goals subst hout
    all_goals have hl := writeLoop_length _ _ _ _ _ _ hwl
    all_goals simp [Buffer.SizeInv, Buffer.GetSizeInBytes, hl,
      length_zeroRange, length_listResize]
  refine ⟨hmain, ?_, ?_, ?_, ?_⟩
  · intro data out h
    exact hmain data 0 out h
  · intro n
    simp [Buffer.SizeInv, Buffer.SetSizeInElements, length_listResize]
  · intro n b2 h
    unfold Buffer.SetSizeInBytes at h
    split at h
    · injection h with hh
      subst hh
      rename_i hmod
      simp only [Buffer.SizeInv, length_listResize]
      exact (Nat.div_mul_cancel (Nat.dvd_of_mod_eq_zero hmod)).symm
    · exact Option.noConfusion h
  · intro src offset hdvd
    unfold Buffer.SetDataFromBuffer
    by_cases hg : b.bytes.length < offset + src.bytes.length
    · rw [if_pos hg]
      simp only [Buffer.SizeInv, length_copyRange, length_listResize]
      rw [max_eq_right (le_of_lt hg)] at hdvd
      rw [Nat.div_mul_cancel hdvd]
    · rw [if_neg hg]
      simp only [Buffer.SizeInv, length_copyRange]
      rw [max_eq_left (le_of_not_lt hg)] at hdvd
      rw [Nat.div_mul_cancel hdvd]

/-- Claim C1 witness: for a concrete three-byte format, `SetSizeInElements`
and a divisibility-respecting `SetDataFromBuffer` both restore the
invariant. -/
theorem C1_witness :
    0 < exBufEmpty3.format.SizeInBytes ∧
    (exBufEmpty3.SetSizeInElements 2).SizeInv ∧
    (exBufEmpty3.SetDataFromBuffer exBufA 0).2.SizeInv := by
  refine ⟨by decide, ?_, ?_⟩
  · exact (C1_amended exBufEmpty3 (by decide)).2.2.1 2
  · exact (C1_amended exBufEmpty3 (by decide)).2.2.2.2 exBufA 0 (by decide)

end Amber

namespace Amber

/-- `SetValueCount` never touches the format. -/
lemma SetValueCount_format (b : Buffer) (c : Nat) :
    (b.SetValueCount c).format = b.format := by
  unfold Buffer.SetValueCount
  split <;> rfl

/-- Field bookkeeping of `SetDataWithOffset` on every completing run: only
`bytes` and `elementCount` change, the element count is the one chosen by
the growth step, and the byte storage is sized to exactly the (possibly
grown) element count times the element byte size. -/
lemma setDataWithOffset_shape (b : Buffer) (data : List Value) (offset : Nat)
    (out : Result' × Buffer) (h : b.SetDataWithOffset data offset = some out) :
    out.2.format = b.format ∧
    out.2.elementCount =
      (if offset / b.format.SizeInBytes * b.format.InputNeededPerElement +
          data.length > b.ValueCount then
        b.SetValueCount (offset / b.format.SizeInBytes *
          b.format.InputNeededPerElement + data.length)
      else b).elementCount ∧
    out.2.bytes.length = out.2.elementCount * b.format.SizeInBytes := by
  simp only [Buffer.SetDataWithOffset] at h
  split at h <;> rename_i hgrow
  all_goals split at h
  all_goals try exact Option.noConfusion h
  all_goals split at h
  all_goals try (injection h with hh; subst hh)
  all_goals try (rw [Option.map_eq_some'] at h; obtain ⟨bytes2, hwl, hout⟩ := h; subst hout)
  all_goals try rw [if_pos hgrow]
  all_goals try rw [if_neg hgrow]
  all_goals refine ⟨?_, rfl, ?_⟩
  all_goals try exact SetValueCount_format _ _
  all_goals try rfl
  all_goals try (have hl := writeLoop_length _ _ _ _ _ _ hwl; simp [hl, length_zeroRange, length_listResize, Buffer.GetSizeInBytes, SetValueCount_format])
  all_goals simp [length_zeroRange, length_listResize, Buffer.GetSizeInBytes, SetValueCount_format]

/-- Claim C7 counterexample: supplying 4 values to an empty 3-components-
per-element buffer ends with value count 3, although the claim demands
`max(prior value count, implied value count) = max(0, 4) = 4`: the growth
step floors the implied count to a whole number of elements. -/
theorem C7_counterexample :
    exBufEmpty3.SetDataWithOffset exData4 0 = some exOut4 ∧
    exOut4.2.ValueCount = 3 ∧
    max exBufEmpty3.ValueCount
      (0 / exBufEmpty3.format.SizeInBytes *
        exBufEmpty3.format.InputNeededPerElement + exData4.length) = 4 := by
  decide

/-- Helper: the element count `SetValueCount` assigns. -/
lemma SetValueCount_elementCount (b : Buffer) (c : Nat) :
    (b.SetValueCount c).elementCount =
      if b.format.isPacked then c else c / b.format.InputNeededPerElement := by
  unfold Buffer.SetValueCount
  split <;> simp_all

/-- Claim C7 as amended: the value count and byte storage never shrink, and
after every completing `SetDataWithOffset` the value count equals the
maximum of the prior value count and the implied value count *rounded down
to a whole number of elements* (`(implied / InputNeededPerElement) *
InputNeededPerElement` for non-packed formats; packed formats are not
rounded).  The byte storage equally never shrinks (given the size invariant
held before the call). -/
theorem C7_amended (b : Buffer) (data : List Value) (offset : Nat)
    (out : Result' × Buffer)
    (hsz : 0 < b.format.SizeInBytes)
    (hinp : 0 < b.format.InputNeededPerElement)
    (h : b.SetDataWithOffset data offset = some out) :
    out.2.ValueCount = max b.ValueCount
      (if b.format.isPacked then
        offset / b.format.SizeInBytes * b.format.InputNeededPerElement +
          data.length
      else (offset / b.format.SizeInBytes * b.format.InputNeededPerElement +
          data.length) / b.format.InputNeededPerElement *
        b.format.InputNeededPerElement) ∧
    b.ValueCount ≤ out.2.ValueCount ∧
    (b.SizeInv → b.bytes.length ≤ out.2.bytes.length) := by
  obtain ⟨hfmt, hec, hlen⟩ := setDataWithOffset_shape b data offset out h
  have hvcout : out.2.ValueCount = if b.format.isPacked then out.2.elementCount
      else out.2.elementCount * b.format.InputNeededPerElement := by
    show (if out.2.format.isPacked then out.2.elementCount
      else out.2.elementCount * out.2.format.InputNeededPerElement) = _
    rw [hfmt]
  have hec2 : out.2.elementCount =
      if offset / b.format.SizeInBytes * b.format.InputNeededPerElement +
          data.length > b.ValueCount then
        (if b.format.isPacked then
          offset / b.format.SizeInBytes * b.format.InputNeededPerElement +
            data.length
        else (offset / b.format.SizeInBytes * b.format.InputNeededPerElement +
            data.length) / b.format.InputNeededPerElement)
      else b.elementCount := by
    rw [hec]
    by_cases hgt : offset / b.format.SizeInBytes *
        b.format.InputNeededPerElement + data.length > b.ValueCount
    · rw [if_pos hgt, if_pos hgt, SetValueCount_elementCount]
    · rw [if_neg hgt, if_neg hgt]
  have hbvc : b.ValueCount = if b.format.isPacked then b.elementCount
      else b.elementCount * b.format.InputNeededPerElement := rfl
  cases hpk : b.format.isPacked with
  | true =>
    simp only [hpk, if_true] at hvcout hec2 hbvc ⊢
    by_cases hgt : offset / b.format.SizeInBytes *
        b.format.InputNeededPerElement + data.length > b.ValueCount
    · rw [if_pos hgt] at hec2
      refine ⟨by omega, by omega, ?_⟩
      intro hinv
      rw [hlen, hinv]
      exact Nat.mul_le_mul_right _ (by omega)
    · rw [if_neg hgt] at hec2
      refine ⟨by omega, by omega, ?_⟩
      intro hinv
      rw [hlen, hinv]
      exact Nat.mul_le_mul_right _ (by omega)
  | false =>
    simp only [hpk, Bool.false_eq_true, if_false] at hvcout hec2 hbvc ⊢
    by_cases hgt : offset / b.format.SizeInBytes *
        b.format.InputNeededPerElement + data.length > b.ValueCount
    · rw [if_pos hgt] at hec2
      have hle : b.elementCount ≤ (offset / b.format.SizeInBytes *
          b.format.InputNeededPerElement + data.length) /
            b.format.InputNeededPerElement := by
        apply (Nat.le_div_iff_mul_le hinp).mpr
        rw [hbvc] at hgt
        omega
      have hmax : max (b.elementCount * b.format.InputNeededPerElement)
          ((offset / b.format.SizeInBytes * b.format.InputNeededPerElement +
              data.length) / b.format.InputNeededPerElement *
            b.format.InputNeededPerElement) =
          (offset / b.format.SizeInBytes * b.format.InputNeededPerElement +
              data.length) / b.format.InputNeededPerElement *
            b.format.InputNeededPerElement :=
        max_eq_right (Nat.mul_le_mul_right _ hle)
      rw [hvcout, hec2, hbvc, hmax]
      refine ⟨rfl, Nat.mul_le_mul_right _ hle, ?_⟩
      intro hinv
      rw [hlen, hinv, hec2]
      exact Nat.mul_le_mul_right _ hle
    · rw [if_neg hgt] at hec2
      have hfl : (offset / b.format.SizeInBytes *
          b.format.InputNeededPerElement + data.length) /
            b.format.InputNeededPerElement *
          b.format.InputNeededPerElement ≤
          b.elementCount * b.format.InputNeededPerElement := by
        have h1 := Nat.div_mul_le_self (offset / b.format.SizeInBytes *
          b.format.InputNeededPerElement + data.length)
          b.format.InputNeededPerElement
        rw [hbvc] at hgt
        omega
      have hmax : max (b.elementCount * b.format.InputNeededPerElement)
          ((offset / b.format.SizeInBytes * b.format.InputNeededPerElement +
              data.length) / b.format.InputNeededPerElement *
            b.format.InputNeededPerElement) =
          b.elementCount * b.format.InputNeededPerElement :=
        max_eq_left hfl
      rw [hvcout, hec2, hbvc, hmax]
      refine ⟨rfl, le_refl _, ?_⟩
      intro hinv
      rw [hlen, hinv, hec2]

/-- Claim C7 witness: at the concrete counterexample input, the amended
statement evaluates: post value count 3 is the floored maximum, and nothing
shrank. -/
theorem C7_witness :
    exBufEmpty3.SetDataWithOffset exData4 0 = some exOut4 ∧
    exOut4.2.ValueCount =
      max exBufEmpty3.ValueCount (4 / 3 * 3) := by
  have heq : exBufEmpty3.SetDataWithOffset exData4 0 = some exOut4 := by decide
  refine ⟨heq, ?_⟩
  have hr := (C7_amended exBufEmpty3 exData4 0 exOut4 (by decide) (by decide) heq).1
  rw [hr]
  decide

/-- Claim C6 (confirmed): a completing `SetDataWithOffset` returns the
mismatch error exactly when the supplied values outnumber what the (post-
growth) element range can hold, i.e. `data.size() > elementCount *
InputNeededPerElement`; and the segment walk that encodes the accepted data
(`writeSegs`, the inner loop of `SetDataWithOffset`) consumes exactly one
input value per non-padding segment, in order, while advancing the write
cursor across every segment (padding included) by its byte size. -/
theorem C6_setDataMismatch (b : Buffer) (data : List Value) (offset : Nat)
    (out : Result' × Buffer)
    (h : b.SetDataWithOffset data offset = some out) :
    ((out.1 = .failure "Mismatched number of items in buffer" ↔
        data.length > out.2.elementCount * b.format.InputNeededPerElement) ∧
      (out.1 = .success ∨
        out.1 = .failure "Mismatched number of items in buffer")) ∧
    (∀ segs data2 bytes ptr out2, writeSegs segs data2 bytes ptr = some out2 →
      out2.1 = data2.drop (segs.filter fun s => !s.IsPadding).length ∧
      (segs.filter fun s => !s.IsPadding).length ≤ data2.length ∧
      out2.2.2 = ptr + (segs.map Segment.SizeInBytes).sum) := by
  constructor
  · have hfmt := (setDataWithOffset_shape b data offset out h).1
    simp only [Buffer.SetDataWithOffset] at h
    split at h <;> rename_i hgrow
    all_goals split at h
    all_goals try exact Option.noConfusion h
    all_goals split at h <;> rename_i hcond
    all_goals try (rw [Option.map_eq_some'] at h; obtain ⟨bytes2, hwl, hout⟩ := h; subst hout)
    all_goals try (injection h with hh; subst hh)
    all_goals first
      | (refine ⟨⟨fun _ => by simpa [Buffer.ElementCount, SetValueCount_format] using hcond, fun _ => rfl⟩, Or.inr rfl⟩)
      | (refine ⟨⟨fun hx => Result'.noConfusion hx, fun hx => absurd (by simpa [Buffer.ElementCount, SetValueCount_format] using hx) hcond⟩, Or.inl rfl⟩)
  · intro segs data2 bytes ptr out2 hws
    obtain ⟨_, h2, h3, h4⟩ := writeSegs_spec segs data2 bytes ptr out2 hws
    exact ⟨h2, h3, h4⟩

end Amber

namespace Amber

/-- Claim C6 witness: the oversupplied concrete call returns exactly the
mismatch error, and the error condition of the theorem evaluates. -/
theorem C6_witness :
    exBufEmpty3.SetDataWithOffset exData4 0 = some exOut4 ∧
    (exOut4.1 = .failure "Mismatched number of items in buffer" ↔
      exData4.length >
        exOut4.2.elementCount * exBufEmpty3.format.InputNeededPerElement) := by
  have heq : exBufEmpty3.SetDataWithOffset exData4 0 = some exOut4 := by decide
  exact ⟨heq, ((C6_setDataMismatch exBufEmpty3 exData4 0 exOut4 heq).1).1⟩

/-- Claim C2 counterexample: for an unsigned 8-bit segment holding 0 in the
own buffer and 1 in the other, the diff is -1 (the C++ integral promotion to
`int` subtracts exactly), not the 255 that per-type unsigned 8-bit
wraparound would give. -/
theorem C2_counterexample :
    CalculateDiff (.component .UInt 8) [0] 0 [1] 0 = some (-1) ∧
    ((0 + 2 ^ 8 - 1) % 2 ^ 8 : Nat) = 255 ∧ (-1 : Rat) ≠ 255 := by
  refine ⟨by decide, by norm_num, by norm_num⟩

/-- Unsigned wraparound subtraction agrees with the integer difference
taken modulo the word size (for in-range operands). -/
lemma u32_wrap_eq (a b : Nat) (ha : a < 2 ^ 32) (hb : b < 2 ^ 32) :
    (((a + 2 ^ 32 - b) % 2 ^ 32 : Nat) : Rat) =
      ((((a : Int) - (b : Int)) % 2 ^ 32 : Int) : Rat) := by
  have hint : (((a + 2 ^ 32 - b) % 2 ^ 32 : Nat) : Int)
      = (((a : Int) - (b : Int)) % 2 ^ 32 : Int) := by omega
  have h1 : (((a + 2 ^ 32 - b) % 2 ^ 32 : Nat) : Rat)
      = ((((a + 2 ^ 32 - b) % 2 ^ 32 : Nat) : Int) : Rat) := by norm_cast
  rw [h1, hint]

/-- The 64-bit analogue of `u32_wrap_eq`. -/
lemma u64_wrap_eq (a b : Nat) (ha : a < 2 ^ 64) (hb : b < 2 ^ 64) :
    (((a + 2 ^ 64 - b) % 2 ^ 64 : Nat) : Rat) =
      ((((a : Int) - (b : Int)) % 2 ^ 64 : Int) : Rat) := by
  have hint : (((a + 2 ^ 64 - b) % 2 ^ 64 : Nat) : Int)
      = (((a : Int) - (b : Int)) % 2 ^ 64 : Int) := by omega
  have h1 : (((a + 2 ^ 64 - b) % 2 ^ 64 : Nat) : Rat)
      = ((((a + 2 ^ 64 - b) % 2 ^ 64 : Nat) : Int) : Rat) := by norm_cast
  rw [h1, hint]

set_option maxHeartbeats 1000000 in
/-- Claim C2 as amended: each component diff is `(own) - (other)` cast to
double under the C++ usual-arithmetic-conversion semantics of the declared
scalar type: 8- and 16-bit operands (signed or unsigned) are promoted to
`int`, so their difference is the exact mathematical difference and an
unsigned difference can be negative; 32- and 64-bit unsigned operands wrap
modulo `2^32` / `2^64`; and a float16 segment is an unimplemented assertion,
producing no diff at all. -/
theorem C2_amended :
    (∀ b1 p1 b2 p2, CalculateDiff (Segment.component .UInt 8) b1 p1 b2 p2 =
      some ((readLE b1 p1 1 : Rat) - (readLE b2 p2 1 : Rat))) ∧
    (∀ b1 p1 b2 p2, CalculateDiff (Segment.component .UInt 16) b1 p1 b2 p2 =
      some ((readLE b1 p1 2 : Rat) - (readLE b2 p2 2 : Rat))) ∧
    (∀ b1 p1 b2 p2, CalculateDiff (Segment.component .SInt 8) b1 p1 b2 p2 =
      some ((toSigned 8 (readLE b1 p1 1) : Rat) -
        (toSigned 8 (readLE b2 p2 1) : Rat))) ∧
    (∀ b1 p1 b2 p2, CalculateDiff (Segment.component .SInt 16) b1 p1 b2 p2 =
      some ((toSigned 16 (readLE b1 p1 2) : Rat) -
        (toSigned 16 (readLE b2 p2 2) : Rat))) ∧
    (∀ b1 p1 b2 p2, readLE b1 p1 4 < 2 ^ 32 → readLE b2 p2 4 < 2 ^ 32 →
      CalculateDiff (Segment.component .UInt 32) b1 p1 b2 p2 =
      some ((((readLE b1 p1 4 : Int) - (readLE b2 p2 4 : Int)) % 2 ^ 32 : Int) : Rat)) ∧
    (∀ b1 p1 b2 p2, readLE b1 p1 8 < 2 ^ 64 → readLE b2 p2 8 < 2 ^ 64 →
      CalculateDiff (Segment.component .UInt 64) b1 p1 b2 p2 =
      some ((((readLE b1 p1 8 : Int) - (readLE b2 p2 8 : Int)) % 2 ^ 64 : Int) : Rat)) ∧
    (∀ b1 p1 b2 p2, CalculateDiff (Segment.component .SFloat 16) b1 p1 b2 p2 = none) := by
  refine ⟨?_, ?_, ?_, ?_, ?_, ?_, ?_⟩
  · intro b1 p1 b2 p2
    show some (Sub_u8 b1 p1 b2 p2) = _
    unfold Sub_u8
    refine congrArg some ?_
    push_cast
    ring
  · intro b1 p1 b2 p2
    show some (Sub_u16 b1 p1 b2 p2) = _
    unfold Sub_u16
    refine congrArg some ?_
    push_cast
    ring
  · intro b1 p1 b2 p2
    show some (Sub_i8 b1 p1 b2 p2) = _
    unfold Sub_i8
    refine congrArg some ?_
    push_cast
    ring
  · intro b1 p1 b2 p2
    show some (Sub_i16 b1 p1 b2 p2) = _
    unfold Sub_i16
    refine congrArg some ?_
    push_cast
    ring
  · intro b1 p1 b2 p2 hx hy
    show some (Sub_u32 b1 p1 b2 p2) = _
    unfold Sub_u32
    exact congrArg some (u32_wrap_eq _ _ hx hy)
  · intro b1 p1 b2 p2 hx hy
    show some (Sub_u64 b1 p1 b2 p2) = _
    unfold Sub_u64
    exact congrArg some (u64_wrap_eq _ _ hx hy)
  · intro b1 p1 b2 p2
    rfl

/-- Claim C2 witness: the unsigned 32-bit path at concrete bytes 0 and 1
wraps to 4294967295, unlike the 8-bit path of the counterexample. -/
theorem C2_witness :
    readLE [0, 0, 0, 0] 0 4 < 2 ^ 32 ∧ readLE [1, 0, 0, 0] 0 4 < 2 ^ 32 ∧
    CalculateDiff (Segment.component .UInt 32) [0, 0, 0, 0] 0 [1, 0, 0, 0] 0 =
      some (4294967295 : Rat) := by
  refine ⟨by decide, by decide, ?_⟩
  have hc := C2_amended.2.2.2.2.1 [0, 0, 0, 0] 0 [1, 0, 0, 0] 0
    (by decide) (by decide)
  rw [hc]
  norm_num [readLE]

end Amber

namespace Amber

/-- Claim C3 counterexample: two empty buffers pass every shape check and
compare successfully at tolerance -1, but the claimed condition
`sqrt(mean(diff^2)) <= tolerance` is false there: the diff list is empty,
so its mean is a division by zero (`NaN` in the C++, the convention value 0
in real arithmetic), and no nonnegative square root is `<= -1`. -/
theorem C3_counterexample :
    exBufEmptyU8.CalculateDiffs exBufEmptyU8 = some [] ∧
    exBufEmptyU8.CompareRMSE exBufEmptyU8 (-1) = some .success ∧
    ¬ (Real.sqrt (((([] : List Rat).map fun v => v * v).sum : Rat) /
        (([] : List Rat).length : ℝ)) ≤ ((-1 : Rat) : ℝ)) := by
  refine ⟨by decide, by decide, ?_⟩
  intro hcon
  simp only [List.map_nil, List.sum_nil, List.length_nil, Rat.cast_zero,
    Nat.cast_zero] at hcon
  rw [zero_div, Real.sqrt_zero] at hcon
  norm_num at hcon

/-- Claim C3 as amended: for buffers passing the shape checks whose diff
list is *nonempty*, `CompareRMSE` succeeds exactly when
`sqrt(mean(diff^2)) <= tolerance` in real arithmetic — the comparison in
the code is the strict `rmse > tolerance`, so an RMSE exactly equal to the
tolerance passes.  (With an empty diff list the code always succeeds, even
for negative tolerances; see claim C10.) -/
theorem C3_amended (b1 b2 : Buffer) (tol : Rat) (diffs : List Rat)
    (hf : b2.format = b1.format) (he : b2.elementCount = b1.elementCount)
    (hw : b2.width = b1.width) (hh : b2.height = b1.height)
    (hd : b1.CalculateDiffs b2 = some diffs) (hne : diffs ≠ []) :
    (b1.CompareRMSE b2 tol = some .success ↔
      Real.sqrt ((((diffs.map fun v => v * v).sum : Rat) : ℝ) /
        (diffs.length : ℝ)) ≤ (tol : ℝ)) := by
  unfold Buffer.CompareRMSE
  rw [if_neg (by simp [hf]), if_neg (by simp [he]), if_neg (by simp [hw]),
    if_neg (by simp [hh]),
    if_neg (by simp [Buffer.ValueCount, hf, he]), hd]
  simp only [Option.map_some']
  rw [if_neg (by simpa using hne)]
  have hcast : (((((diffs.map fun v => v * v).sum) / (diffs.length : Rat)) : Rat) : ℝ)
      = (((diffs.map fun v => v * v).sum : Rat) : ℝ) / (diffs.length : ℝ) := by
    push_cast
    ring
  by_cases hgt : sqrtGTQ ((diffs.map fun v => v * v).sum / (diffs.length : Rat)) tol = true
  · rw [if_pos hgt]
    have hlt := (sqrtGTQ_iff _ tol).mp hgt
    rw [hcast] at hlt
    constructor
    · intro hcon
      injection hcon with hc
      exact Result'.noConfusion hc
    · intro hle
      exact absurd hle (not_le.mpr hlt)
  · rw [if_neg hgt]
    have hnlt := (sqrtGTQ_iff ((diffs.map fun v => v * v).sum / (diffs.length : Rat)) tol).not.mp
      (by simpa using hgt)
    rw [hcast] at hnlt
    exact ⟨fun _ => le_of_not_lt hnlt, fun _ => rfl⟩

/-- Claim C3 witness: a buffer compared against itself has the all-zero diff
list, and at tolerance 0 the comparison succeeds (RMSE equal to the
tolerance passes). -/
theorem C3_witness :
    exBufA.CalculateDiffs exBufA = some [0, 0, 0] ∧
    exBufA.CompareRMSE exBufA 0 = some .success := by
  have hd : exBufA.CalculateDiffs exBufA = some [0, 0, 0] := by decide
  refine ⟨hd, ?_⟩
  rw [C3_amended exBufA exBufA 0 [0, 0, 0] rfl rfl rfl rfl hd (by decide)]
  norm_num [Real.sqrt_zero]

end Amber

namespace Amber

/-- A fully valid token list parses to its decimal values, in order. -/
lemma parseIndicesTokens_ok (ln : Nat) : ∀ toks : List String,
    (toks.all fun t => (parseDec t).any fun v => v ≤ 65535) = true →
    parseIndicesTokens ln toks = .ok (toks.filterMap parseDec) := by
  intro toks
  induction toks with
  | nil => intro _; rfl
  | cons t ts ih =>
    intro hall
    rw [List.all_cons, Bool.and_eq_true] at hall
    obtain ⟨ht, hts⟩ := hall
    cases hp : parseDec t with
    | none => rw [hp] at ht; exact Bool.noConfusion ht
    | some v =>
      rw [hp] at ht
      simp only [Option.any_some, decide_eq_true_eq] at ht
      rw [parseIndicesTokens, hp]
      dsimp only
      rw [if_neg (show ¬ v > 65535 from by omega), ih hts]
      simp [List.filterMap_cons, hp]

/-- The first token that fails to parse as a non-negative decimal integer
aborts the line with the invalid-value error for that token. -/
lemma parseIndicesTokens_invalid (ln : Nat) : ∀ (tp : List String)
    (bad : String) (rest : List String),
    (tp.all fun t => (parseDec t).any fun v => v ≤ 65535) = true →
    parseDec bad = none →
    parseIndicesTokens ln (tp ++ bad :: rest) =
      .error (lineErr ln ("Invalid value in indices block: " ++ bad)) := by
  intro tp
  induction tp with
  | nil =>
    intro bad rest _ hbad
    rw [List.nil_append, parseIndicesTokens, hbad]
  | cons t ts ih =>
    intro bad rest hall hbad
    rw [List.all_cons, Bool.and_eq_true] at hall
    obtain ⟨ht, hts⟩ := hall
    cases hp : parseDec t with
    | none => rw [hp] at ht; exact Bool.noConfusion ht
    | some v =>
      rw [hp] at ht
      simp only [Option.any_some, decide_eq_true_eq] at ht
      rw [List.cons_append, parseIndicesTokens, hp]
      dsimp only
      rw [if_neg (show ¬ v > 65535 from by omega), ih bad rest hts hbad]

/-- The first token whose value exceeds the unsigned 16-bit range aborts the
line with the too-large error for that token. -/
lemma parseIndicesTokens_large (ln : Nat) : ∀ (tp : List String)
    (bad : String) (rest : List String) (v : Nat),
    (tp.all fun t => (parseDec t).any fun w => w ≤ 65535) = true →
    parseDec bad = some v → v > 65535 →
    parseIndicesTokens ln (tp ++ bad :: rest) =
      .error (lineErr ln ("Value too large in indices block: " ++ bad)) := by
  intro tp
  induction tp with
  | nil =>
    intro bad rest v _ hbad hv
    rw [List.nil_append, parseIndicesTokens, hbad]
    dsimp only
    rw [if_pos hv]
  | cons t ts ih =>
    intro bad rest v hall hbad hv
    rw [List.all_cons, Bool.and_eq_true] at hall
    obtain ⟨ht, hts⟩ := hall
    cases hp : parseDec t with
    | none => rw [hp] at ht; exact Bool.noConfusion ht
    | some w =>
      rw [hp] at ht
      simp only [Option.any_some, decide_eq_true_eq] at ht
      rw [List.cons_append, parseIndicesTokens, hp]
      dsimp only
      rw [if_neg (show ¬ w > 65535 from by omega), ih bad rest v hts hbad hv]

/-- Fully valid content lines accumulate all their values, in order, across
lines. -/
lemma parseIndicesLines_ok : ∀ (lines : List String) (ln : Nat),
    (lines.all fun l => (tokenizeLine l).all fun t =>
      (parseDec t).any fun v => v ≤ 65535) = true →
    parseIndicesLines ln lines =
      .ok ((lines.map fun l => (tokenizeLine l).filterMap parseDec).flatten) := by
  intro lines
  induction lines with
  | nil => intro ln _; rfl
  | cons l ls ih =>
    intro ln hall
    rw [List.all_cons, Bool.and_eq_true] at hall
    obtain ⟨hl, hls⟩ := hall
    rw [parseIndicesLines, parseIndicesTokens_ok ln _ hl, ih (ln + 1) hls]
    simp

/-- An error on the first offending line surfaces with that line's 1-based
(section-relative) number; earlier fully-valid lines only advance the
counter. -/
lemma parseIndicesLines_error : ∀ (pre : List String) (ln : Nat) (l : String)
    (post : List String) (e : String),
    (pre.all fun l' => (tokenizeLine l').all fun t =>
      (parseDec t).any fun v => v ≤ 65535) = true →
    parseIndicesTokens (ln + pre.length) (tokenizeLine l) = .error e →
    parseIndicesLines ln (pre ++ l :: post) = .error e := by
  intro pre
  induction pre with
  | nil =>
    intro ln l post e _ herr
    rw [List.nil_append, parseIndicesLines]
    rw [List.length_nil, Nat.add_zero] at herr
    rw [herr]
  | cons p ps ih =>
    intro ln l post e hall herr
    rw [List.all_cons, Bool.and_eq_true] at hall
    obtain ⟨hp, hps⟩ := hall
    rw [List.cons_append, parseIndicesLines, parseIndicesTokens_ok ln _ hp]
    rw [List.length_cons] at herr
    rw [ih (ln + 1) l post e hps (by rw [show ln + 1 + ps.length = ln + (ps.length + 1) from by omega]; exact herr)]

/-- Claim C8 (confirmed, spec-modelled): in an `[indices]` section, every
token failing to parse as a non-negative base-10 integer fails the parse
with exactly `"<line>: Invalid value in indices block: <token>"`, every
token whose value exceeds the unsigned 16-bit range fails with exactly
`"<line>: Value too large in indices block: <token>"` — where `<line>` is
the 1-based number of the offending token's line, counted relative to the
section content per the test oracle (`IndicesBlockBadValue` reports line 1
for input line 2) — and when no token offends, all values accumulate in
order into one index buffer with 16-bit unsigned scalar type. -/
theorem C8_indices :
    (∀ lines : List String,
      (lines.all fun l => (tokenizeLine l).all fun t =>
        (parseDec t).any fun v => v ≤ 65535) = true →
      parseIndicesBlock lines = .ok ⟨.index, .UInt, 16,
        (lines.map fun l => (tokenizeLine l).filterMap parseDec).flatten⟩) ∧
    (∀ (pre : List String) (l : String) (post : List String) (tp : List String)
        (bad : String) (rest : List String),
      (pre.all fun l' => (tokenizeLine l').all fun t =>
        (parseDec t).any fun v => v ≤ 65535) = true →
      tokenizeLine l = tp ++ bad :: rest →
      (tp.all fun t => (parseDec t).any fun v => v ≤ 65535) = true →
      parseDec bad = none →
      parseIndicesBlock (pre ++ l :: post) =
        .error (lineErr (pre.length + 1) ("Invalid value in indices block: " ++ bad))) ∧
    (∀ (pre : List String) (l : String) (post : List String) (tp : List String)
        (bad : String) (rest : List String) (v : Nat),
      (pre.all fun l' => (tokenizeLine l').all fun t =>
        (parseDec t).any fun w => w ≤ 65535) = true →
      tokenizeLine l = tp ++ bad :: rest →
      (tp.all fun t => (parseDec t).any fun w => w ≤ 65535) = true →
      parseDec bad = some v → v > 65535 →
      parseIndicesBlock (pre ++ l :: post) =
        .error (lineErr (pre.length + 1) ("Value too large in indices block: " ++ bad))) := by
  refine ⟨?_, ?_, ?_⟩
  · intro lines hall
    unfold parseIndicesBlock
    rw [parseIndicesLines_ok lines 1 hall]
  · intro pre l post tp bad rest hpre htok htp hbad
    unfold parseIndicesBlock
    rw [parseIndicesLines_error pre 1 l post _ hpre
      (by rw [htok, show 1 + pre.length = pre.length + 1 from by omega]
          exact parseIndicesTokens_invalid (pre.length + 1) tp bad rest htp hbad)]
  · intro pre l post tp bad rest v hpre htok htp hbad hv
    unfold parseIndicesBlock
    rw [parseIndicesLines_error pre 1 l post _ hpre
      (by rw [htok, show 1 + pre.length = pre.length + 1 from by omega]
          exact parseIndicesTokens_large (pre.length + 1) tp bad rest v htp hbad hv)]

/-- Claim C8 witness: the three oracle inputs — `"1 a 3"` (invalid token),
`"100000000000 3"` (too large) and the valid two-line block — produce
exactly the test-expected results when the theorem is instantiated. -/
theorem C8_witness :
    parseIndicesBlock ["1 a 3"] = .error "1: Invalid value in indices block: a" ∧
    parseIndicesBlock ["100000000000 3"] =
      .error "1: Value too large in indices block: 100000000000" ∧
    parseIndicesBlock ["# comment line", "1 2 3   4 5 6", "7 8 9  10 11 12"] =
      .ok ⟨.index, .UInt, 16, [1, 2, 3, 4, 5, 6, 7, 8, 9, 10, 11, 12]⟩ := by
  refine ⟨?_, ?_, ?_⟩
  · have hc := C8_indices.2.1 [] "1 a 3" [] ["1"] "a" ["3"]
      (by decide) (by decide) (by decide) (by decide)
    rw [List.nil_append] at hc
    rw [hc]
    decide
  · have hc := C8_indices.2.2 [] "100000000000 3" [] [] "100000000000" ["3"]
      100000000000 (by decide) (by decide) (by decide) (by decide) (by decide)
    rw [List.nil_append] at hc
    rw [hc]
    decide
  · have hc := C8_indices.1 ["# comment line", "1 2 3   4 5 6", "7 8 9  10 11 12"]
      (by decide)
    rw [hc]
    decide

end Amber

namespace Amber

/-- Claim C9 (confirmed, spec-modelled): inside a `[test]` section, the
first line whose leading keyword is not in the recognized command vocabulary
fails the parse with exactly `"<line>: Unknown command: <token>"`, where
`<line>` is the global 1-based line number at which that line appears —
blank and comment lines before it advance the counter, and (second
conjunct, the `ErrorLineNumberBug195` oracle) lines of all preceding
sections count too: the error in that input is reported at line 9, not at
the section start. -/
theorem C9_testSection :
    (∀ (ln loc : Nat) (sk : List String) (bad : String) (rest : List String)
        (t : String) (ts : List String),
      (∀ l ∈ sk, isSectionHeader l = false ∧ isSkippable l = true) →
      isSectionHeader bad = false →
      tokenizeLine bad = t :: ts →
      t ∉ knownTestCommands →
      runScript ln loc .test (sk ++ bad :: rest) =
        .error (lineErr (ln + sk.length) ("Unknown command: " ++ t))) ∧
    parseVkScript exBug195Input = .error "9: Unknown command: unknown" := by
  constructor
  · intro ln loc sk
    induction sk generalizing ln loc with
    | nil =>
      intro bad rest t ts _ hbadh htok ht
      rw [List.nil_append, runScript, if_neg (by simp [hbadh])]
      have hskip : isSkippable bad = false := by
        rw [isSkippable, htok]
        rfl
      rw [if_neg (by simp [hskip]), htok]
      have hcmd : parseCommand ln (t :: ts) =
          .error (lineErr ln ("Unknown command: " ++ t)) := by
        rw [parseCommand]
        rw [if_neg (by simpa [knownTestCommands] using ht)]
      rw [hcmd]
      simp
    | cons l sk ih =>
      intro bad rest t ts hsk hbadh htok ht
      obtain ⟨hlh, hls⟩ := hsk l (List.mem_cons_self l sk)
      rw [List.cons_append, runScript, if_neg (by simp [hlh])]
      rw [if_pos (by simp [hls])]
      rw [ih (ln + 1) (loc + 1) bad rest t ts
        (fun l' hl' => hsk l' (List.mem_cons_of_mem l hl')) hbadh htok ht]
      have harith : ln + 1 + sk.length = ln + (l :: sk).length := by
        simp [List.length_cons]
        omega
      rw [harith]
  · decide

/-- Claim C9 witness: instantiating the general statement at global line 8
with one comment line before the offending `unknown` line reports the error
at line 9. -/
theorem C9_witness :
    runScript 8 1 .test ["# c", "unknown"] =
      .error "9: Unknown command: unknown" := by
  have hc := C9_testSection.1 8 1 ["# c"] "unknown" [] "unknown" []
    (by decide) (by decide) (by decide) (by decide)
  have hc2 : runScript 8 1 .test ["# c", "unknown"] =
      .error (lineErr (8 + (["# c"] : List String).length)
        ("Unknown command: " ++ "unknown")) := hc
  rw [hc2]
  decide

end Amber
